import Mathlib

/-!
# Polaris frontend: role-map layout and page-stack scrolling

A shallow embedding of the numeric core of
`src/components/RoleMap/RoleMap.jsx` (metric projection, radial placement,
overlap relaxation), of `src/components/RoleDetail/RoleDetail.jsx`
(the held-key scroll tick and the per-page visual state) and of the search box
of `src/pages/SkillsPage.jsx` (the highlighted suggestion).

JavaScript numbers are modelled in exact arithmetic over an ordered field `α`,
extended with `NaN` and the two infinities (`JSNum α`).  Rounding and the sign
of zero are not modelled; the operations of `JSNum` do not overflow, and
`toRange`, `rangeOf` and `placeRoleDouble` add the range of a double where a
result can leave it.  The transcendental functions of `Math` are supplied by a
record `MathOps α`; `realMath` is their real-number instance.
-/

set_option linter.unusedSectionVars false

namespace Polaris

/-! ## JavaScript numbers -/

/-- A JavaScript number: a finite value, `NaN`, `+Infinity` or `-Infinity`. -/
inductive JSNum (α : Type) where
  | fin (x : α)
  | nan
  | pinf
  | ninf
  deriving DecidableEq, Repr

/-- The functions of the JavaScript `Math` object on finite arguments, and the constant `Math.PI`. -/
structure MathOps (α : Type) where
  sqrt : α → α
  atan2 : α → α → α
  cos : α → α
  sin : α → α
  pi : α

namespace JSNum

variable {α : Type} [LinearOrderedField α]

/-- An infinity of the given sign. -/
def inf (positive : Bool) : JSNum α := if positive then pinf else ninf

/-- Infinity of sign `positive` multiplied or divided by a finite non-zero `b`. -/
def infSigned (positive : Bool) (b : α) : JSNum α :=
  if 0 < b then inf positive else inf (!positive)

/-- JavaScript `a + b` on numbers. -/
def add : JSNum α → JSNum α → JSNum α
  | fin a, fin b => fin (a + b)
  | nan, _ => nan
  | _, nan => nan
  | pinf, ninf => nan
  | ninf, pinf => nan
  | pinf, _ => pinf
  | _, pinf => pinf
  | ninf, _ => ninf
  | _, ninf => ninf

/-- JavaScript unary minus. -/
def neg : JSNum α → JSNum α
  | fin a => fin (-a)
  | nan => nan
  | pinf => ninf
  | ninf => pinf

/-- JavaScript `a - b` on numbers. -/
def sub : JSNum α → JSNum α → JSNum α
  | fin a, fin b => fin (a - b)
  | a, b => add a (neg b)

/-- JavaScript `a * b` on numbers. -/
def mul : JSNum α → JSNum α → JSNum α
  | fin a, fin b => fin (a * b)
  | nan, _ => nan
  | _, nan => nan
  | pinf, fin b => if b = 0 then nan else infSigned true b
  | ninf, fin b => if b = 0 then nan else infSigned false b
  | fin a, pinf => if a = 0 then nan else infSigned true a
  | fin a, ninf => if a = 0 then nan else infSigned false a
  | pinf, pinf => pinf
  | ninf, ninf => pinf
  | pinf, ninf => ninf
  | ninf, pinf => ninf

/-- JavaScript `a / b` on numbers: `0/0` is `NaN`, a non-zero value over `0` is an infinity. -/
def div : JSNum α → JSNum α → JSNum α
  | fin a, fin b =>
    if b = 0 then (if a = 0 then nan else infSigned true a) else fin (a / b)
  | nan, _ => nan
  | _, nan => nan
  | fin _, pinf => fin 0
  | fin _, ninf => fin 0
  | pinf, fin b => if b < 0 then ninf else pinf
  | ninf, fin b => if b < 0 then pinf else ninf
  | pinf, pinf => nan
  | pinf, ninf => nan
  | ninf, pinf => nan
  | ninf, ninf => nan

instance : Add (JSNum α) := ⟨add⟩
instance : Sub (JSNum α) := ⟨sub⟩
instance : Mul (JSNum α) := ⟨mul⟩
instance : Div (JSNum α) := ⟨div⟩

/-- JavaScript `a < b`: false as soon as one side is `NaN`. -/
def lt : JSNum α → JSNum α → Bool
  | fin a, fin b => decide (a < b)
  | nan, _ => false
  | _, nan => false
  | ninf, fin _ => true
  | ninf, pinf => true
  | fin _, pinf => true
  | _, _ => false

/-- JavaScript `a > b`. -/
def gt (a b : JSNum α) : Bool := lt b a

/-- JavaScript `Math.min(a, b)`. -/
def mathMin : JSNum α → JSNum α → JSNum α
  | fin a, fin b => fin (min a b)
  | nan, _ => nan
  | _, nan => nan
  | ninf, _ => ninf
  | _, ninf => ninf
  | pinf, b => b
  | a, pinf => a

/-- JavaScript `Math.max(a, b)`. -/
def mathMax : JSNum α → JSNum α → JSNum α
  | fin a, fin b => fin (max a b)
  | nan, _ => nan
  | _, nan => nan
  | pinf, _ => pinf
  | _, pinf => pinf
  | ninf, b => b
  | a, ninf => a

/-- JavaScript `Math.sqrt(a)`. -/
def mathSqrt (M : MathOps α) : JSNum α → JSNum α
  | fin a => if a < 0 then nan else fin (M.sqrt a)
  | pinf => pinf
  | _ => nan

/-- JavaScript `Math.cos(a)`. -/
def mathCos (M : MathOps α) : JSNum α → JSNum α
  | fin a => fin (M.cos a)
  | _ => nan

/-- JavaScript `Math.sin(a)`. -/
def mathSin (M : MathOps α) : JSNum α → JSNum α
  | fin a => fin (M.sin a)
  | _ => nan

/-- JavaScript `Math.atan2(y, x)`. -/
def mathAtan2 (M : MathOps α) : JSNum α → JSNum α → JSNum α
  | fin y, fin x => fin (M.atan2 y x)
  | nan, _ => nan
  | _, nan => nan
  | fin _, pinf => fin 0
  | fin y, ninf => if y < 0 then fin (-M.pi) else fin M.pi
  | pinf, fin _ => fin (M.pi / 2)
  | ninf, fin _ => fin (-(M.pi / 2))
  | pinf, pinf => fin (M.pi / 4)
  | pinf, ninf => fin (3 * M.pi / 4)
  | ninf, pinf => fin (-(M.pi / 4))
  | ninf, ninf => fin (-(3 * M.pi / 4))

/-- Reading a property as a number: an absent property is `undefined`, whose numeric value is `NaN`. -/
def toNum : Option (JSNum α) → JSNum α
  | some v => v
  | none => nan

end JSNum

open JSNum

variable {α : Type} [LinearOrderedField α]

/-! ## Role map (`RoleMap.jsx`) -/

/-- Canvas width, `const WIDTH = 1200`. -/
def WIDTH : ℕ := 1200

/-- Canvas height, `const HEIGHT = 750`. -/
def HEIGHT : ℕ := 750

/-- Canvas padding, `const PADDING = 100`. -/
def PADDING : ℕ := 100

/-- The constant `minDistance = 128` of `applyDistanceAwareSpacing`. -/
def minDistance : ℕ := 128

/-- The constant `maxIterations = 70` of `applyDistanceAwareSpacing`. -/
def maxIterations : ℕ := 70

/-- A role as delivered by the role data source.  A field that is `none` is a property absent
from the object (reading it gives `undefined`).  The display colour is carried through
untouched and is left out. -/
structure Role (α : Type) where
  name : String
  technical : Option (JSNum α)
  creative : Option (JSNum α)
  business : Option (JSNum α)
  customer : Option (JSNum α)
  distance : Option (JSNum α)

/-- A placed role: the object built at lines 90-98 of `RoleMap.jsx`, without its colour,
its random animation delay and its constant `placed` flag. -/
structure Node (α : Type) where
  name : String
  x : JSNum α
  y : JSNum α
  distance : JSNum α

/-- The clamp `Math.max(PADDING + 50, Math.min(WIDTH - PADDING - 50, v))` of the x axis. -/
def clampX (v : JSNum α) : JSNum α :=
  mathMax (fin (PADDING : α) + fin 50) (mathMin (fin (WIDTH : α) - fin (PADDING : α) - fin 50) v)

/-- The clamp `Math.max(PADDING + 50, Math.min(HEIGHT - PADDING - 60, v))` of the y axis. -/
def clampY (v : JSNum α) : JSNum α :=
  mathMax (fin (PADDING : α) + fin 50) (mathMin (fin (HEIGHT : α) - fin (PADDING : α) - fin 60) v)

/-- Lines 68-74 of `fetchPersonalizedRoles`: the pair `(xRatio, yRatio)` of a role. -/
def projectMetrics (role : Role α) : JSNum α × JSNum α :=
  let peopleScore := (toNum role.business + toNum role.creative) / fin 2
  let systemsScore := (toNum role.technical + (fin 10 - toNum role.business)) / fin 2
  let xRatio := systemsScore / (peopleScore + systemsScore)
  let strategicScore := (toNum role.creative + toNum role.business) / fin 2
  let tacticalScore := (toNum role.technical + toNum role.customer) / fin 2
  let yRatio := tacticalScore / (strategicScore + tacticalScore)
  ( xRatio, yRatio)

/-- Line 76 of `fetchPersonalizedRoles`:
`role.distance !== undefined ? role.distance : 5`. -/
def baseDistance (distance : Option (JSNum α)) : JSNum α :=
  match distance with
  | some d => d
  | none => fin 5

/-- Lines 76-88 of `fetchPersonalizedRoles`: the clamped coordinate `(clampedX, clampedY)`
computed from the two ratios, the role's `distance` property and its list index. -/
def placeRole (M : MathOps α) (xRatio yRatio : JSNum α) (distance : Option (JSNum α))
    (index : ℕ) : JSNum α × JSNum α :=
  let scaledDistance := baseDistance distance * fin 35
  let angle := mathAtan2 M (yRatio - fin 0.5) ( xRatio - fin 0.5) + fin ((index : α) * 0.1)
  let centerX : JSNum α := fin (WIDTH : α) / fin 2
  let centerY : JSNum α := fin (HEIGHT : α) / fin 2
  let x := centerX + scaledDistance * mathCos M angle
  let y := centerY + scaledDistance * mathSin M angle
  (clampX x, clampY y)

/-- The callback of `data.roles.map` in `fetchPersonalizedRoles` (lines 67-99). -/
def positionRole (M : MathOps α) (role : Role α) (index : ℕ) : Node α :=
  let r := projectMetrics role
  let c := placeRole M r.1 r.2 role.distance index
  { name := role.name, x := c.1, y := c.2, distance := baseDistance role.distance }

/-- The array `positionedRoles`: `data.roles.map((role, index) => ...)`. -/
def positionedRoles (M : MathOps α) (roles : List (Role α)) : List (Node α) :=
  roles.enum.map (fun p => positionRole M p.2 p.1)

/-- The value `distance` of lines 27-29 of `applyDistanceAwareSpacing` for the pair
`(ni, nj)`: `Math.sqrt(dx * dx + dy * dy)`. -/
def pairDistance (M : MathOps α) (ni nj : Node α) : JSNum α :=
  let dx := nj.x - ni.x
  let dy := nj.y - ni.y
  mathSqrt M (dx * dx + dy * dy)

/-- The test of line 31: `distance < minDistance && distance > 0`. -/
def needsPush (M : MathOps α) (ni nj : Node α) : Bool :=
  lt (pairDistance M ni nj) (fin (minDistance : α)) && gt (pairDistance M ni nj) (fin 0)

/-- Lines 32-46: the two nodes of a pair after they are pushed apart and clamped. -/
def pushPair (M : MathOps α) (ni nj : Node α) : Node α × Node α :=
  let dx := nj.x - ni.x
  let dy := nj.y - ni.y
  let distance := pairDistance M ni nj
  let overlap := fin (minDistance : α) - distance
  let angle := mathAtan2 M dy dx
  let pushX := mathCos M angle * overlap * fin 0.4
  let pushY := mathSin M angle * overlap * fin 0.4
  ({ ni with x := clampX (ni.x - pushX), y := clampY (ni.y - pushY) },
   { nj with x := clampX (nj.x + pushX), y := clampY (nj.y + pushY) })

/-- The body of the innermost loop (lines 27-49) for the pair of indices `(i, j)`, on the
array and the `adjusted` flag.  The loops only reach indices inside the array. -/
def pairStep (M : MathOps α) (i : ℕ) (st : List (Node α) × Bool) (j : ℕ) :
    List (Node α) × Bool :=
  match st.1[i]?, st.1[j]? with
  | some ni, some nj =>
    if needsPush M ni nj then
      (((st.1).set i (pushPair M ni nj).1).set j (pushPair M ni nj).2, true)
    else st
  | _, _ => st

/-- The loop `for (let j = i + 1; j < nodes.length; j++)` of line 26. -/
def innerLoop (M : MathOps α) (st : List (Node α) × Bool) (i : ℕ) : List (Node α) × Bool :=
  (List.range' (i + 1) (st.1.length - (i + 1))).foldl (pairStep M i) st

/-- One relaxation pass (lines 23-51): `adjusted` starts false and every pair `i < j` is
visited in order. -/
def relaxPass (M : MathOps α) (nodes : List (Node α)) : List (Node α) × Bool :=
  (List.range' 0 nodes.length).foldl (innerLoop M) (nodes, false)

/-- What the loop of line 22 leaves behind: the array, the number of passes that were run and
whether the loop was left through `break`. -/
structure SpacingResult (α : Type) where
  nodes : List (Node α)
  passes : ℕ
  broke : Bool

/-- The loop `for (let iter = 0; iter < maxIterations; iter++)` of lines 22-54, with
`budget` iterations left. -/
def spacingLoop (M : MathOps α) : ℕ → List (Node α) → SpacingResult α
  | 0, nodes => { nodes := nodes, passes := 0, broke := false }
  | budget + 1, nodes =>
    let st := relaxPass M nodes
    if st.2 then
      let r := spacingLoop M budget st.1
      { nodes := r.nodes, passes := r.passes + 1, broke := r.broke }
    else
      { nodes := st.1, passes := 1, broke := true }

/-- The function `applyDistanceAwareSpacing` (lines 18-57). -/
def applyDistanceAwareSpacing (M : MathOps α) (nodes : List (Node α)) : List (Node α) :=
  (spacingLoop M maxIterations nodes).nodes

/-- The layout computed by `fetchPersonalizedRoles`: placement, then spacing (line 101). -/
def spreadRoles (M : MathOps α) (roles : List (Role α)) : List (Node α) :=
  applyDistanceAwareSpacing M (positionedRoles M roles)

/-- A coordinate pair inside the canvas box `[150, 1050] × [150, 590]`. -/
def InBounds (x y : JSNum α) : Prop :=
  ∃ a b : α, x = fin a ∧ y = fin b ∧ 150 ≤ a ∧ a ≤ 1050 ∧ 150 ≤ b ∧ b ≤ 590

/-! ## Role detail (`RoleDetail.jsx`) -/

/-- One run of `animate` (lines 58-65) on the scroll position: `pagesLength` is
`pages.length`, the two flags are `keysPressed.current.ArrowDown` and
`keysPressed.current.ArrowUp`.  The position starts at the literal `0` and is only ever
changed here, so it is a finite number. -/
def animate (pagesLength : ℕ) (arrowDown arrowUp : Bool) (prev : α) : α :=
  if arrowDown then min (prev + 0.015) ((pagesLength : α) - 1)
  else if arrowUp then max (prev - 0.015) 0
  else prev

/-- The scroll position after a sequence of ticks, each with its `(ArrowDown, ArrowUp)`
flags. -/
def runTicks (pagesLength : ℕ) (flags : List (Bool × Bool)) (start : α) : α :=
  flags.foldl (fun p f => animate pagesLength f.1 f.2 p) start

/-- The CSS `visibility` value given to a page. -/
inductive Visibility where
  | visible
  | hidden
  deriving DecidableEq, Repr

/-- The presentation attributes computed for one page. -/
structure PageStyle (α : Type) where
  translateY : α
  scale : α
  opacity : α
  zIndex : ℕ
  visibility : Visibility

/-- Line 143: `const offset = index - scrollPosition`. -/
def pageOffset (index : ℕ) (scrollPosition : α) : α :=
  (index : α) - scrollPosition

/-- Lines 145-184 of the `pages.map` callback: the attributes of a page at a given
offset. -/
def pageStyle (offset : α) : PageStyle α :=
  if offset > 1 then
    { translateY := 100, scale := 0.85, opacity := 0, zIndex := 5, visibility := .hidden }
  else if offset > 0 then
    { translateY := offset * 100, scale := 0.85 + ((1 - offset) * 0.15), opacity := 1,
      zIndex := 20, visibility := .visible }
  else if offset ≥ -0.01 then
    { translateY := 0, scale := 1, opacity := 1, zIndex := 10, visibility := .visible }
  else if offset ≥ -1 then
    { translateY := 0, scale := 1 + (offset * 0.25), opacity := 1 + offset, zIndex := 5,
      visibility := .visible }
  else
    { translateY := 0, scale := 0.75, opacity := 0, zIndex := 1, visibility := .hidden }

/-- The attributes of every page of a stack of `pagesLength` pages (line 142). -/
def pageStyles (pagesLength : ℕ) (scrollPosition : α) : List (PageStyle α) :=
  (List.range pagesLength).map (fun index => pageStyle (pageOffset index scrollPosition))

/-- The role with all four metrics equal to `0` (each inside `[0, 10]`) and distance `5`. -/
def zeroRole : Role α :=
  { name := "A", technical := some (fin 0), creative := some (fin 0), business := some (fin 0),
    customer := some (fin 0), distance := some (fin 5) }

/-- A metric property with the value `0` put in place of an absent one. -/
def orZero (m : Option (JSNum α)) : Option (JSNum α) :=
  match m with
  | some v => some v
  | none => some (fin 0)

/-- The role with each absent metric set to `0`. -/
def withZeroDefaults (role : Role α) : Role α :=
  { role with
    technical := orZero role.technical, creative := orZero role.creative,
    business := orZero role.business, customer := orZero role.customer }

/-- One or more of the four metrics is absent from the role. -/
def hasAbsentMetric (role : Role α) : Prop :=
  role.technical = none ∨ role.creative = none ∨ role.business = none ∨ role.customer = none

/-- A role whose `technical` metric is absent, the three others being `5`. -/
def roleWithoutTechnical : Role ℚ :=
  { name := "A", technical := none, creative := some (fin 5), business := some (fin 5),
    customer := some (fin 5), distance := some (fin 5) }

/-- Every node of the list has its coordinate inside the canvas box. -/
def AllInBounds (nodes : List (Node α)) : Prop :=
  ∀ n ∈ nodes, InBounds n.x n.y

/-- No pair of nodes `i < j` of the list passes the test of line 31, that is, no pair is at
a distance strictly between `0` and `minDistance`. -/
def NoPairNeedsPush (M : MathOps α) (nodes : List (Node α)) : Prop :=
  ∀ i j : ℕ, ∀ ni nj : Node α,
    i < j → nodes[i]? = some ni → nodes[j]? = some nj → needsPush M ni nj = false

/-- Two placed roles at the same point, the centre of the canvas. -/
def coincidentNodes : List (Node ℝ) :=
  [{ name := "A", x := fin 600, y := fin 375, distance := fin 0 },
   { name := "B", x := fin 600, y := fin 375, distance := fin 0 }]

/-- Two placed roles ten units apart, next to the top-left corner of the canvas box. -/
def cornerNodes : List (Node ℝ) :=
  [{ name := "A", x := fin 150, y := fin 150, distance := fin 5 },
   { name := "B", x := fin 160, y := fin 150, distance := fin 5 }]

/-- Line 79 of `fetchPersonalizedRoles`:
`Math.atan2(yRatio - 0.5, xRatio - 0.5) + (index * 0.1)`. -/
def placementAngle (M : MathOps α) (xRatio yRatio : JSNum α) (index : ℕ) : JSNum α :=
  mathAtan2 M (yRatio - fin 0.5) ( xRatio - fin 0.5) + fin ((index : α) * 0.1)

/-- The role list `[{name: "A", technical: 5, creative: 5, business: 5, customer: 5,
distance: 5}]`. -/
def singleRoleList : List (Role ℝ) :=
  [{ name := "A", technical := some (fin 5), creative := some (fin 5),
     business := some (fin 5), customer := some (fin 5), distance := some (fin 5) }]

/-- The node placed for the only role of `singleRoleList`. -/
def singleRoleNode : Node ℝ :=
  { name := "A", x := fin 775, y := fin 375, distance := fin 5 }

/-- A role with the metric vector `(5, 5, 5, 5)` and the distance hint `0`. -/
def tiedRole (name : String) : Role ℝ :=
  { name := name, technical := some (fin 5), creative := some (fin 5),
    business := some (fin 5), customer := some (fin 5), distance := some (fin 0) }

/-- Three roles with one metric vector and one distance hint, at the list indices 0, 1, 2. -/
def threeTiedRoles : List (Role ℝ) :=
  [tiedRole "A", tiedRole "B", tiedRole "C"]

/-- The node placed for a role of `threeTiedRoles`. -/
def centreNode (name : String) : Node ℝ :=
  { name := name, x := fin 600, y := fin 375, distance := fin 0 }

/-- The placement angle of a role at a list index: line 79 on the ratios of lines 68-74. -/
def roleAngle (M : MathOps α) (role : Role α) (index : ℕ) : JSNum α :=
  placementAngle M (projectMetrics role).1 (projectMetrics role).2 index

/-- Two roles have the same metric vector. -/
def SameMetrics (r s : Role α) : Prop :=
  r.technical = s.technical ∧ r.creative = s.creative ∧ r.business = s.business ∧
    r.customer = s.customer

/-- All nodes of the list share one coordinate. -/
def SameCoordinates (nodes : List (Node α)) : Prop :=
  ∀ n ∈ nodes, ∀ m ∈ nodes, n.x = m.x ∧ n.y = m.y

/-- The pages of the stack that are given `visibility: visible`. -/
def visibleStyles (pagesLength : ℕ) (scrollPosition : α) : List (PageStyle α) :=
  (pageStyles pagesLength scrollPosition).filter (fun s => decide (s.visibility = .visible))

/-- Lines 32-41 of `applyDistanceAwareSpacing`: the coordinates `(x, y)` written to node `i`
and to node `j` by the four updates, before the clamps of lines 43-46. -/
def rawPush (M : MathOps α) (ni nj : Node α) : (JSNum α × JSNum α) × (JSNum α × JSNum α) :=
  let dx := nj.x - ni.x
  let dy := nj.y - ni.y
  let distance := pairDistance M ni nj
  let overlap := fin (minDistance : α) - distance
  let angle := mathAtan2 M dy dx
  let pushX := mathCos M angle * overlap * fin 0.4
  let pushY := mathSin M angle * overlap * fin 0.4
  ((ni.x - pushX, ni.y - pushY), (nj.x + pushX, nj.y + pushY))

/-- The clamps of lines 43-46 change none of the four coordinates written for the pair. -/
def NoClamp (M : MathOps α) (ni nj : Node α) : Prop :=
  clampX (rawPush M ni nj).1.1 = (rawPush M ni nj).1.1 ∧
    clampY (rawPush M ni nj).1.2 = (rawPush M ni nj).1.2 ∧
    clampX (rawPush M ni nj).2.1 = (rawPush M ni nj).2.1 ∧
    clampY (rawPush M ni nj).2.2 = (rawPush M ni nj).2.2

/-- The array after `k` full passes of the loop body. -/
def afterPasses (M : MathOps α) : ℕ → List (Node α) → List (Node α)
  | 0, nodes => nodes
  | k + 1, nodes => afterPasses M k (relaxPass M nodes).1

/-- A node with a finite coordinate. -/
def nodeAt (name : String) (x y : α) (distance : JSNum α) : Node α :=
  { name := name, x := fin x, y := fin y, distance := distance }

/-- Where node `i` of a pair goes on one axis when it is moved by `-0.4 (128 - d) u`:
`a` is its coordinate, `c` the coordinate of node `j`, `d` the distance of the pair, so that
`(c - a) / d` is the component of the unit vector `u` from `i` to `j`. -/
def movedI (a c d : α) : α := a - 0.4 * (128 - d) * ((c - a) / d)

/-- Where node `j` of a pair goes on one axis when it is moved by `+0.4 (128 - d) u`. -/
def movedJ (a c d : α) : α := c + 0.4 * (128 - d) * ((c - a) / d)

/-- Room around a pair of points `(a, b)` and `(c, e)` at distance `d`: the two points at
`64` from their midpoint on the line through them lie in the canvas box. -/
def Margin (a b c e d : α) : Prop :=
  (150 ≤ (a + c) / 2 - 64 * ((c - a) / d) ∧ (a + c) / 2 - 64 * ((c - a) / d) ≤ 1050) ∧
    (150 ≤ (a + c) / 2 + 64 * ((c - a) / d) ∧ (a + c) / 2 + 64 * ((c - a) / d) ≤ 1050) ∧
    (150 ≤ (b + e) / 2 - 64 * ((e - b) / d) ∧ (b + e) / 2 - 64 * ((e - b) / d) ≤ 590) ∧
    (150 ≤ (b + e) / 2 + 64 * ((e - b) / d) ∧ (b + e) / 2 + 64 * ((e - b) / d) ≤ 590)

/-- Two placed roles `64` apart on the horizontal line through the centre of the canvas. -/
def twoCloseNodes : List (Node ℝ) :=
  [nodeAt "A" 568 375 (fin 5), nodeAt "B" 632 375 (fin 5)]

/-! ## Skills page (`SkillsPage.jsx`) -/

/-- JavaScript `s.toLowerCase()`, on the letters `A` to `Z` only: letters outside ASCII, which
JavaScript lowers too, are left as they are. -/
def toLowerCase (s : String) : String :=
  String.mk (s.data.map Char.toLower)

/-- JavaScript `s.includes(t)`: `t` occurs in `s` as a contiguous run of characters. -/
def includes (s t : String) : Bool :=
  decide (t.data <:+: s.data)

/-- JavaScript `s.trim()`: `s` without its leading and trailing white space, here space, tab,
carriage return and line feed only (JavaScript strips Unicode white space too). -/
def trim (s : String) : String :=
  String.mk ((s.data.dropWhile Char.isWhitespace).reverse.dropWhile Char.isWhitespace).reverse

/-- The list `filteredSkills` of lines 87-91, for the flattened skill table `allSkills` (the
values of `known_skills.json`, a data file) and the current search term; an empty search term
is falsy and gives the empty list. -/
def filteredSkills (allSkills : List String) (searchTerm : String) : List String :=
  if searchTerm ≠ "" then
    (allSkills.filter
      (fun skill => includes (toLowerCase skill) (toLowerCase searchTerm))).take 3
  else []

/-- The state of the skills page read or written by the search box. -/
structure SkillsState where
  selectedSkills : List String
  customSkills : List String
  showSearch : Bool
  searchTerm : String
  highlightedIndex : ℤ
  error : Option String

/-- JavaScript `xs[i]` on an array and an integer index: `undefined` (here `none`) outside the
array. -/
def arrayAt (xs : List String) (i : ℤ) : Option String :=
  if 0 ≤ i then xs[i.toNat]? else none

/-- The function `addSkillFromSearch` (lines 63-84).  Its argument is `none` when the caller
passes `undefined`; the call `skill.trim()` of line 64 then throws a `TypeError`. -/
def addSkillFromSearch (allSkills topSkills : List String) (st : SkillsState)
    (skill : Option String) : Except String SkillsState :=
  match skill with
  | none => .error "TypeError"
  | some skill =>
    let trimmedSkill := trim skill
    if trimmedSkill = "" then .ok st
    else
      let isValidSkill := allSkills.any (fun s => toLowerCase s == toLowerCase trimmedSkill)
      if !isValidSkill then
        .ok { st with error := some "Please select a skill from the suggestions" }
      else
        let selected :=
          if !st.selectedSkills.contains trimmedSkill then st.selectedSkills ++ [trimmedSkill]
          else st.selectedSkills
        let custom :=
          if !topSkills.contains trimmedSkill && !st.customSkills.contains trimmedSkill then
            st.customSkills ++ [trimmedSkill]
          else st.customSkills
        .ok { st with
          selectedSkills := selected, customSkills := custom, searchTerm := "",
          showSearch := false }

/-- The function `handleKeyPress` (lines 86-108) for a key-down event with `e.key = key`. -/
def handleKeyPress (allSkills topSkills : List String) (st : SkillsState) (key : String) :
    Except String SkillsState :=
  let filtered := filteredSkills allSkills st.searchTerm
  if key = "ArrowDown" then
    .ok { st with
      highlightedIndex :=
        if st.highlightedIndex < (filtered.length : ℤ) - 1 then st.highlightedIndex + 1 else 0 }
  else if key = "ArrowUp" then
    .ok { st with
      highlightedIndex :=
        if st.highlightedIndex > 0 then st.highlightedIndex - 1
        else (filtered.length : ℤ) - 1 }
  else if key = "Enter" ∧ st.highlightedIndex ≥ 0 then
    match addSkillFromSearch allSkills topSkills st (arrayAt filtered st.highlightedIndex) with
    | .ok st1 => .ok { st1 with highlightedIndex := -1 }
    | .error err => .error err
  else .ok st

/-- The highlighted index is `-1` or an index of the current list of suggestions. -/
def HighlightValid (allSkills : List String) (st : SkillsState) : Prop :=
  st.highlightedIndex = -1 ∨
    (0 ≤ st.highlightedIndex ∧
      st.highlightedIndex < ((filteredSkills allSkills st.searchTerm).length : ℤ))

/-- The search box just opened: nothing typed, nothing highlighted. -/
def openSearch : SkillsState :=
  { selectedSkills := [], customSkills := [], showSearch := true, searchTerm := "",
    highlightedIndex := -1, error := none }

/-- The search box after a term was typed (the change handler sets the highlight to `-1`). -/
def searching (term : String) : SkillsState :=
  { selectedSkills := [], customSkills := [], showSearch := true, searchTerm := term,
    highlightedIndex := -1, error := none }

/-- A skill table in which no skill contains `zzz`. -/
def sampleSkills : List String := ["Python", "JavaScript", "React"]

/-! ## The range of a double -/

/-- The least magnitude that a double cannot hold: a result of magnitude `2^1024 - 2^970` or
more is stored as an infinity. -/
def doubleLimit : α := 2 ^ 1024 - 2 ^ 970

/-- A finite exact result as it is stored in a double: an infinity once it leaves the range
of a double (rounding inside the range is not modelled). -/
def toRange (v : α) : JSNum α :=
  if doubleLimit ≤ v then pinf else if v ≤ -doubleLimit then ninf else fin v

/-- The result of an arithmetic operation as it is stored in a double. -/
def rangeOf : JSNum α → JSNum α
  | fin v => toRange v
  | nan => nan
  | pinf => pinf
  | ninf => ninf

/-- Lines 76-88 of `fetchPersonalizedRoles` as `placeRole`, with every arithmetic result
stored in a double: a result that leaves the range of a double becomes an infinity. -/
def placeRoleDouble (M : MathOps α) (xRatio yRatio : JSNum α) (distance : Option (JSNum α))
    (index : ℕ) : JSNum α × JSNum α :=
  let scaledDistance := rangeOf (baseDistance distance * fin 35)
  let angle :=
    rangeOf (mathAtan2 M (rangeOf (yRatio - fin 0.5)) (rangeOf ( xRatio - fin 0.5)) +
      rangeOf (fin ((index : α) * 0.1)))
  let centerX : JSNum α := rangeOf (fin (WIDTH : α) / fin 2)
  let centerY : JSNum α := rangeOf (fin (HEIGHT : α) / fin 2)
  let x := rangeOf (centerX + rangeOf (scaledDistance * mathCos M angle))
  let y := rangeOf (centerY + rangeOf (scaledDistance * mathSin M angle))
  (clampX x, clampY y)

/-- A node whose two coordinates are finite numbers. -/
def FiniteNode (n : Node α) : Prop :=
  ∃ a b : α, n.x = fin a ∧ n.y = fin b

/-- Every node of the list has finite coordinates. -/
def AllFinite (nodes : List (Node α)) : Prop :=
  ∀ n ∈ nodes, FiniteNode n

/-! ## The real-number instance -/

/-- The `Math` functions over the real numbers; `atan2 y x` is the argument of `x + y i`. -/
noncomputable def realMath : MathOps ℝ where
  sqrt := Real.sqrt
  atan2 := fun y x => Complex.arg ⟨x, y⟩
  cos := Real.cos
  sin := Real.sin
  pi := Real.pi

/-! ## Lemmas on JavaScript numbers -/

namespace JSNum

@[simp]
theorem fin_add_fin (a b : α) : (fin a + fin b : JSNum α) = fin (a + b) := rfl
@[simp]
theorem fin_sub_fin (a b : α) : (fin a - fin b : JSNum α) = fin (a - b) := rfl
@[simp]
theorem fin_mul_fin (a b : α) : (fin a * fin b : JSNum α) = fin (a * b) := rfl
@[simp]
theorem fin_div_fin (a b : α) (h : b ≠ 0) : (fin a / fin b : JSNum α) = fin (a / b) := by
  show div (fin a) (fin b) = _
  simp [div, h]
@[simp]
theorem zero_div_zero : (fin 0 / fin 0 : JSNum α) = nan := by
  show div (fin 0) (fin 0) = _
  simp [div]
@[simp]
theorem nan_add (a : JSNum α) : (nan + a : JSNum α) = nan := by
  cases a <;> rfl
@[simp]
theorem add_nan (a : JSNum α) : (a + nan : JSNum α) = nan := by
  cases a <;> rfl
@[simp]
theorem nan_sub (a : JSNum α) : (nan - a : JSNum α) = nan := by
  cases a <;> rfl
@[simp]
theorem sub_nan (a : JSNum α) : (a - nan : JSNum α) = nan := by
  cases a <;> rfl
@[simp]
theorem nan_mul (a : JSNum α) : (nan * a : JSNum α) = nan := by
  cases a <;> rfl
@[simp]
theorem mul_nan (a : JSNum α) : (a * nan : JSNum α) = nan := by
  cases a <;> rfl
@[simp]
theorem nan_div (a : JSNum α) : (nan / a : JSNum α) = nan := by
  cases a <;> rfl
@[simp]
theorem div_nan (a : JSNum α) : (a / nan : JSNum α) = nan := by
  cases a <;> rfl
@[simp]
theorem mathMin_fin (a b : α) : mathMin (fin a) (fin b) = fin (min a b) := rfl
@[simp]
theorem mathMax_fin (a b : α) : mathMax (fin a) (fin b) = fin (max a b) := rfl
@[simp]
theorem mathMin_nan (a : JSNum α) : mathMin a nan = nan := by
  cases a <;> rfl
@[simp]
theorem mathMax_nan (a : JSNum α) : mathMax a nan = nan := by
  cases a <;> rfl
@[simp]
theorem mathCos_fin (M : MathOps α) (a : α) : mathCos M (fin a) = fin (M.cos a) := rfl
@[simp]
theorem mathSin_fin (M : MathOps α) (a : α) : mathSin M (fin a) = fin (M.sin a) := rfl
@[simp]
theorem mathCos_nan (M : MathOps α) : mathCos M nan = nan := rfl
@[simp]
theorem mathSin_nan (M : MathOps α) : mathSin M nan = nan := rfl
@[simp]
theorem mathAtan2_fin (M : MathOps α) (y x : α) :
    mathAtan2 M (fin y) (fin x) = fin (M.atan2 y x) := rfl
@[simp]
theorem mathAtan2_nan_left (M : MathOps α) (x : JSNum α) : mathAtan2 M nan x = nan := by
  cases x <;> rfl
@[simp]
theorem mathAtan2_nan_right (M : MathOps α) (y : JSNum α) : mathAtan2 M y nan = nan := by
  cases y <;> rfl
@[simp]
theorem mathSqrt_fin (M : MathOps α) (a : α) (h : 0 ≤ a) :
    mathSqrt M (fin a) = fin (M.sqrt a) := by
  simp [mathSqrt, not_lt.mpr h]
@[simp]
theorem lt_fin (a b : α) : lt (fin a) (fin b) = decide (a < b) := rfl
@[simp]
theorem gt_fin (a b : α) : gt (fin a) (fin b) = decide (b < a) := rfl
@[simp]
theorem toNum_some (v : JSNum α) : toNum (some v) = v := rfl
@[simp]
theorem toNum_none : toNum (none : Option (JSNum α)) = nan := rfl

end JSNum

/-! ## Placement stays on the canvas -/

theorem clampX_fin (v : α) : clampX (fin v) = fin (max 150 (min 1050 v)) := by
  simp only [clampX, WIDTH, PADDING, fin_add_fin, fin_sub_fin, mathMin_fin, mathMax_fin]
  norm_num

theorem clampY_fin (v : α) : clampY (fin v) = fin (max 150 (min 590 v)) := by
  simp only [clampY, HEIGHT, PADDING, fin_add_fin, fin_sub_fin, mathMin_fin, mathMax_fin]
  norm_num

theorem clampX_nan : clampX (nan : JSNum α) = nan := by
  simp [clampX]

theorem clampY_nan : clampY (nan : JSNum α) = nan := by
  simp [clampY]

theorem inBounds_clamp (a b : α) : InBounds (clampX (fin a)) (clampY (fin b)) := by
  refine ⟨max 150 (min 1050 a), max 150 (min 590 b), clampX_fin a, clampY_fin b, ?_, ?_, ?_, ?_⟩
  · exact le_max_left _ _
  · exact max_le (by norm_num) (min_le_left _ _)
  · exact le_max_left _ _
  · exact max_le (by norm_num) (min_le_left _ _)

/-- In exact arithmetic, where no product leaves the range of a double: for real-valued ratios,
a real distance hint (or an absent one, read as 5) and any list index, the coordinate computed
by the placement lies in `[150, 1050] × [150, 590]`, whatever values the functions of `Math`
return.  For the range of a double see `placeRoleDouble`. -/
theorem placeRole_inBounds (M : MathOps α) (xr yr : α) (d : Option α) (index : ℕ) :
    InBounds (placeRole M (fin xr) (fin yr) (d.map fin) index).1
      (placeRole M (fin xr) (fin yr) (d.map fin) index).2 := by
  cases d with
  | none =>
    simp only [placeRole, baseDistance, Option.map_none', fin_sub_fin, mathAtan2_fin, fin_add_fin,
      fin_mul_fin, mathCos_fin, mathSin_fin, fin_div_fin _ _ (two_ne_zero : (2 : α) ≠ 0)]
    exact inBounds_clamp _ _
  | some d =>
    simp only [placeRole, baseDistance, Option.map_some', fin_sub_fin, mathAtan2_fin, fin_add_fin,
      fin_mul_fin, mathCos_fin, mathSin_fin, fin_div_fin _ _ (two_ne_zero : (2 : α) ≠ 0)]
    exact inBounds_clamp _ _

/-- A role with distance hint `0` is placed at the centre of the canvas, whatever its ratios
and its list index: two such roles are placed at the same point. -/
theorem placeRole_zero_distance (M : MathOps α) (xr yr : α) (index : ℕ) :
    placeRole M (fin xr) (fin yr) (some (fin 0)) index = (fin 600, fin 375) := by
  simp only [placeRole, baseDistance, fin_sub_fin, mathAtan2_fin, fin_add_fin,
    fin_mul_fin, mathCos_fin, mathSin_fin, fin_div_fin _ _ (two_ne_zero : (2 : α) ≠ 0),
    clampX_fin, clampY_fin, WIDTH, HEIGHT]
  norm_num

/-! ## Metric projection -/

/-- The two ratios of a role whose four metrics are present and finite, away from a zero
denominator. -/
theorem projectMetrics_fin (n : String) (t c b u : α) (d : Option (JSNum α))
    (hx : (b + c) / 2 + (t + (10 - b)) / 2 ≠ 0) (hy : (c + b) / 2 + (t + u) / 2 ≠ 0) :
    projectMetrics
        { name := n, technical := some (fin t), creative := some (fin c),
          business := some (fin b), customer := some (fin u), distance := d } =
      (fin ((t + (10 - b)) / 2 / ((b + c) / 2 + (t + (10 - b)) / 2)),
        fin ((t + u) / 2 / ((c + b) / 2 + (t + u) / 2))) := by
  simp only [projectMetrics, toNum_some, fin_add_fin, fin_sub_fin,
    fin_div_fin _ _ (two_ne_zero : (2 : α) ≠ 0), fin_div_fin _ _ hx, fin_div_fin _ _ hy]

/-- For metrics in `[0, 10]` that are not all zero, both ratios are finite and lie in `[0, 1]`. -/
theorem projectMetrics_unit_of_pos (n : String) (t c b u : α) (d : Option (JSNum α))
    (ht : 0 ≤ t ∧ t ≤ 10) (hc : 0 ≤ c ∧ c ≤ 10) (hb : 0 ≤ b ∧ b ≤ 10) (hu : 0 ≤ u ∧ u ≤ 10)
    (hpos : 0 < t + c + b + u) :
    ∃ x y : α,
      projectMetrics
          { name := n, technical := some (fin t), creative := some (fin c),
            business := some (fin b), customer := some (fin u), distance := d } =
        (fin x, fin y) ∧ 0 ≤ x ∧ x ≤ 1 ∧ 0 ≤ y ∧ y ≤ 1 := by
  have hx : 0 < (b + c) / 2 + (t + (10 - b)) / 2 := by linarith [ht.1, hc.1, hb.1, hb.2]
  have hy : 0 < (c + b) / 2 + (t + u) / 2 := by linarith
  refine ⟨_, _, projectMetrics_fin n t c b u d hx.ne' hy.ne', ?_, ?_, ?_, ?_⟩
  · exact div_nonneg (by linarith [ht.1, hb.2]) hx.le
  · rw [div_le_one hx]; linarith [hb.1, hc.1]
  · exact div_nonneg (by linarith [ht.1, hu.1]) hy.le
  · rw [div_le_one hy]; linarith [hb.1, hc.1]

/-- C3. At the metric vector `(0, 0, 0, 0)`, whose entries all lie in `[0, 10]`, the code
computes `xRatio = 1` and `yRatio = 0 / 0 = NaN`: the second ratio is not a number of
`[0, 1]`. -/
theorem projectMetrics_zeroRole :
    projectMetrics (zeroRole : Role α) = (fin 1, nan) ∧
      ¬ ∃ y : α, (projectMetrics (zeroRole : Role α)).2 = fin y ∧ 0 ≤ y ∧ y ≤ 1 := by
  have h : projectMetrics (zeroRole : Role α) = (fin 1, nan) := by
    simp only [projectMetrics, zeroRole, toNum_some, fin_add_fin, fin_sub_fin,
      fin_div_fin _ _ (two_ne_zero : (2 : α) ≠ 0)]
    norm_num
  refine ⟨h, ?_⟩
  rw [h]
  rintro ⟨y, hy, _⟩
  cases hy

/-- C4. At the metric vector `(0, 0, 0, 0)` the sum `strategicScore + tacticalScore` is `0`;
the code then computes `yRatio = NaN` instead of `0.5`, and both coordinates of the placed
role are `NaN`, at every list index and for every choice of the `Math` functions. -/
theorem positionRole_zeroRole (M : MathOps α) (index : ℕ) :
    (projectMetrics (zeroRole : Role α)).2 = nan ∧
      (positionRole M (zeroRole : Role α) index).x = nan ∧
      (positionRole M (zeroRole : Role α) index).y = nan := by
  have h : projectMetrics (zeroRole : Role α) = (fin 1, nan) := by
    simp only [projectMetrics, zeroRole, toNum_some, fin_add_fin, fin_sub_fin,
      fin_div_fin _ _ (two_ne_zero : (2 : α) ≠ 0)]
    norm_num
  refine ⟨by rw [h], ?_, ?_⟩
  · simp only [positionRole, h, placeRole, nan_sub, mathAtan2_nan_left, nan_add, mathCos_nan,
      mul_nan, add_nan, clampX_nan]
  · simp only [positionRole, h, placeRole, nan_sub, mathAtan2_nan_left, nan_add, mathSin_nan,
      mul_nan, add_nan, clampY_nan]

/-- C5. The claim fails on the code: with `technical` absent and the other metrics `5` the
code computes the pair `(NaN, NaN)`, while the same role with `technical = 0` gives
`(1/3, 1/3)`; the metrics get no default where line 76 gives one to `distance`. -/
theorem absent_technical_differs_from_zero :
    projectMetrics roleWithoutTechnical = (nan, nan) ∧
      projectMetrics (withZeroDefaults roleWithoutTechnical) = (fin (1 / 3), fin (1 / 3)) ∧
      hasAbsentMetric roleWithoutTechnical ∧
      projectMetrics roleWithoutTechnical ≠
        projectMetrics (withZeroDefaults roleWithoutTechnical) := by
  have h1 : projectMetrics roleWithoutTechnical = (nan, nan) := by
    simp [projectMetrics, roleWithoutTechnical]
  have h2 : projectMetrics (withZeroDefaults roleWithoutTechnical) =
      (fin (1 / 3), fin (1 / 3)) := by
    simp only [withZeroDefaults, roleWithoutTechnical, orZero]
    rw [projectMetrics_fin _ _ _ _ _ _ (by norm_num) (by norm_num)]
    norm_num
  refine ⟨h1, h2, Or.inl rfl, ?_⟩
  rw [h1, h2]
  intro h
  cases h

/-- What lines 68-74 compute when a metric is absent: `yRatio` is `NaN`; `xRatio` is `NaN` as
well when the absent metric is `technical`, `creative` or `business`, and it never reads
`customer`. -/
theorem projectMetrics_absent (role : Role α) (h : hasAbsentMetric role) :
    (projectMetrics role).2 = nan ∧
      ((role.technical = none ∨ role.creative = none ∨ role.business = none) →
        (projectMetrics role).1 = nan) ∧
      ∀ u : Option (JSNum α),
        (projectMetrics { role with customer := u }).1 = (projectMetrics role).1 := by
  refine ⟨?_, ?_, fun u => rfl⟩
  · rcases h with h | h | h | h <;> simp [projectMetrics, h]
  · intro h3
    rcases h3 with h | h | h <;> simp [projectMetrics, h]

theorem projectMetrics_absent_witness :
    hasAbsentMetric roleWithoutTechnical ∧
      (projectMetrics roleWithoutTechnical).2 = nan ∧
      ((roleWithoutTechnical.technical = none ∨ roleWithoutTechnical.creative = none ∨
          roleWithoutTechnical.business = none) →
        (projectMetrics roleWithoutTechnical).1 = nan) ∧
      ∀ u : Option (JSNum ℚ),
        (projectMetrics { roleWithoutTechnical with customer := u }).1 =
          (projectMetrics roleWithoutTechnical).1 :=
  ⟨Or.inl rfl, projectMetrics_absent roleWithoutTechnical (Or.inl rfl)⟩

/-! ## Scroll position -/

theorem animate_range (N : ℕ) (hN : 1 ≤ N) (down up : Bool) (p : α)
    (h0 : 0 ≤ p) (h1 : p ≤ (N : α) - 1) :
    0 ≤ animate N down up p ∧ animate N down up p ≤ (N : α) - 1 := by
  have hN1 : (0 : α) ≤ (N : α) - 1 := by
    have : (1 : α) ≤ (N : α) := by exact_mod_cast hN
    linarith
  unfold animate
  split_ifs
  · exact ⟨le_min (by linarith) hN1, min_le_right _ _⟩
  · exact ⟨le_max_right _ _, max_le (by linarith) hN1⟩
  · exact ⟨h0, h1⟩

theorem runTicks_stays_inside (N : ℕ) (hN : 1 ≤ N) (flags : List (Bool × Bool)) :
    ∀ p : α, 0 ≤ p → p ≤ (N : α) - 1 →
      0 ≤ runTicks N flags p ∧ runTicks N flags p ≤ (N : α) - 1 := by
  induction flags with
  | nil => intro p h0 h1; exact ⟨h0, h1⟩
  | cons f fs ih =>
    intro p h0 h1
    have h := animate_range N hN f.1 f.2 p h0 h1
    exact ih _ h.1 h.2

/-- C6. With at least one page, from a start position in `[0, N - 1]` and under any sequence
of ticks with arbitrary flag values, the position after each tick (after the first `k` ticks,
for every `k`) lies in `[0, N - 1]`. -/
theorem runTicks_range (N : ℕ) (hN : 1 ≤ N) (start : α) (h0 : 0 ≤ start)
    (h1 : start ≤ (N : α) - 1) (flags : List (Bool × Bool)) (k : ℕ) :
    0 ≤ runTicks N (flags.take k) start ∧ runTicks N (flags.take k) start ≤ (N : α) - 1 :=
  runTicks_stays_inside N hN (flags.take k) start h0 h1

theorem runTicks_range_witness :
    0 ≤ runTicks 4 ([(true, false), (true, true), (false, true), (false, false)].take 3)
        (0 : ℚ) ∧
      runTicks 4 ([(true, false), (true, true), (false, true), (false, false)].take 3)
        (0 : ℚ) ≤ ((4 : ℕ) : ℚ) - 1 :=
  runTicks_range 4 (by decide) 0 (le_refl 0) (by norm_num) _ 3

theorem runTicks_append (N : ℕ) (a b : List (Bool × Bool)) (p : α) :
    runTicks N (a ++ b) p = runTicks N b (runTicks N a p) := by
  simp only [runTicks, List.foldl_append]

theorem runTicks_snoc (N : ℕ) (flags : List (Bool × Bool)) (f : Bool × Bool) (p : α) :
    runTicks N (flags ++ [f]) p = animate N f.1 f.2 (runTicks N flags p) := by
  simp [runTicks, List.foldl_append]

theorem runTicks_down (N : ℕ) (hN : 1 ≤ N) (k : ℕ) :
    runTicks N (List.replicate k (true, false)) (0 : α) = min (0.015 * (k : α)) ((N : α) - 1) := by
  have hN1 : (0 : α) ≤ (N : α) - 1 := by
    have : (1 : α) ≤ (N : α) := by exact_mod_cast hN
    linarith
  induction k with
  | zero => simp [runTicks, min_eq_left hN1]
  | succ k ih =>
    rw [List.replicate_succ', runTicks_snoc, ih]
    simp only [animate, if_true]
    push_cast
    rcases le_total (0.015 * (k : α)) ((N : α) - 1) with h | h
    · rw [min_eq_left h]
      congr 1
      ring
    · rw [min_eq_right h, min_eq_right (by linarith), min_eq_right (by linarith)]

/-- C7. With at least one page, starting at `0` with only the down flag held, the position
after `k` ticks is `min (0.015 * k) (N - 1)`; once `k ≥ (N - 1) / 0.015` it is exactly
`N - 1`, and any number of further down ticks leaves it at `N - 1`. -/
theorem runTicks_down_saturates (N : ℕ) (hN : 1 ≤ N) (k : ℕ) :
    runTicks N (List.replicate k (true, false)) (0 : α) = min (0.015 * (k : α)) ((N : α) - 1) ∧
      (((N : α) - 1) / 0.015 ≤ (k : α) →
        runTicks N (List.replicate k (true, false)) (0 : α) = (N : α) - 1 ∧
        ∀ m : ℕ,
          runTicks N (List.replicate m (true, false))
            (runTicks N (List.replicate k (true, false)) (0 : α)) = (N : α) - 1) := by
  have hstep : (0 : α) < 0.015 := by norm_num
  have key : ∀ j : ℕ, ((N : α) - 1) / 0.015 ≤ (j : α) →
      runTicks N (List.replicate j (true, false)) (0 : α) = (N : α) - 1 := by
    intro j hj
    rw [runTicks_down N hN j]
    apply min_eq_right
    rw [div_le_iff₀ hstep] at hj
    linarith
  refine ⟨runTicks_down N hN k, fun hk => ⟨key k hk, fun m => ?_⟩⟩
  have happ : runTicks N (List.replicate m (true, false))
      (runTicks N (List.replicate k (true, false)) (0 : α)) =
      runTicks N (List.replicate (k + m) (true, false)) (0 : α) := by
    rw [List.replicate_add, runTicks_append]
  rw [happ]
  apply key
  push_cast
  have : (0 : α) ≤ (m : α) := Nat.cast_nonneg m
  linarith

theorem runTicks_down_saturates_witness :
    runTicks 2 (List.replicate 67 (true, false)) (0 : ℚ) =
        min (0.015 * ((67 : ℕ) : ℚ)) (((2 : ℕ) : ℚ) - 1) ∧
      ((((2 : ℕ) : ℚ) - 1) / 0.015 ≤ ((67 : ℕ) : ℚ) →
        runTicks 2 (List.replicate 67 (true, false)) (0 : ℚ) = ((2 : ℕ) : ℚ) - 1 ∧
        ∀ m : ℕ,
          runTicks 2 (List.replicate m (true, false))
            (runTicks 2 (List.replicate 67 (true, false)) (0 : ℚ)) = ((2 : ℕ) : ℚ) - 1) :=
  runTicks_down_saturates 2 (by decide) 67

/-! ## Visual state of a page -/

/-- C8. At offset `0` the attributes are exactly `translateY = 0`, `scale = 1`, `opacity = 1`,
`zIndex = 10`, visible. -/
theorem pageStyle_zero :
    pageStyle (0 : α) =
      { translateY := 0, scale := 1, opacity := 1, zIndex := 10, visibility := .visible } := by
  unfold pageStyle
  rw [if_neg (by norm_num), if_neg (by norm_num), if_pos (by norm_num)]

/-- C9. The attributes follow the five-zone table at every offset: above `1`; in `(0, 1]`;
in `[-0.01, 0]`; in `[-1, -0.01)`; below `-1`. -/
theorem pageStyle_zones (offset : α) :
    (1 < offset →
      pageStyle offset =
        { translateY := 100, scale := 0.85, opacity := 0, zIndex := 5, visibility := .hidden }) ∧
    (0 < offset ∧ offset ≤ 1 →
      pageStyle offset =
        { translateY := 100 * offset, scale := 0.85 + 0.15 * (1 - offset), opacity := 1,
          zIndex := 20, visibility := .visible }) ∧
    (-0.01 ≤ offset ∧ offset ≤ 0 →
      pageStyle offset =
        { translateY := 0, scale := 1, opacity := 1, zIndex := 10, visibility := .visible }) ∧
    (-1 ≤ offset ∧ offset < -0.01 →
      pageStyle offset =
        { translateY := 0, scale := 1 + 0.25 * offset, opacity := 1 + offset, zIndex := 5,
          visibility := .visible }) ∧
    (offset < -1 →
      pageStyle offset =
        { translateY := 0, scale := 0.75, opacity := 0, zIndex := 1, visibility := .hidden }) := by
  refine ⟨fun h => ?_, fun h => ?_, fun h => ?_, fun h => ?_, fun h => ?_⟩
  · unfold pageStyle
    rw [if_pos h]
  · unfold pageStyle
    rw [if_neg (not_lt.mpr h.2), if_pos h.1, mul_comm offset 100, mul_comm (1 - offset) 0.15]
  · unfold pageStyle
    rw [if_neg (by linarith [h.2]), if_neg (not_lt.mpr h.2), if_pos h.1]
  · have h0 : offset < 0 := by
      have : (-0.01 : α) < 0 := by norm_num
      linarith [h.2]
    unfold pageStyle
    rw [if_neg (by linarith), if_neg (by linarith), if_neg (not_le.mpr h.2), if_pos h.1,
      mul_comm offset 0.25]
  · unfold pageStyle
    rw [if_neg (by linarith), if_neg (by linarith), if_neg (by norm_num; linarith),
      if_neg (not_le.mpr h)]

/-! ## Overlap relaxation -/

theorem foldl_invariant {σ β : Type} (P : σ → Prop) (f : σ → β → σ)
    (hf : ∀ s x, P s → P (f s x)) : ∀ (l : List β) (s : σ), P s → P (l.foldl f s) := by
  intro l
  induction l with
  | nil => intro s hs; exact hs
  | cons x xs ih => intro s hs; exact ih _ (hf s x hs)

theorem pairDistance_fin (M : MathOps α) (ni nj : Node α) (a b c d : α)
    (hix : ni.x = fin a) (hiy : ni.y = fin b) (hjx : nj.x = fin c) (hjy : nj.y = fin d) :
    pairDistance M ni nj = fin (M.sqrt ((c - a) * (c - a) + (d - b) * (d - b))) := by
  have h : (0 : α) ≤ (c - a) * (c - a) + (d - b) * (d - b) :=
    add_nonneg (mul_self_nonneg _) (mul_self_nonneg _)
  simp only [pairDistance, hix, hiy, hjx, hjy, fin_sub_fin, fin_mul_fin, fin_add_fin]
  exact mathSqrt_fin M _ h

theorem pushPair_inBounds (M : MathOps α) (ni nj : Node α)
    (hi : InBounds ni.x ni.y) (hj : InBounds nj.x nj.y) :
    InBounds (pushPair M ni nj).1.x (pushPair M ni nj).1.y ∧
      InBounds (pushPair M ni nj).2.x (pushPair M ni nj).2.y := by
  obtain ⟨a, b, hix, hiy, -⟩ := hi
  obtain ⟨c, d, hjx, hjy, -⟩ := hj
  have hd := pairDistance_fin M ni nj a b c d hix hiy hjx hjy
  simp only [pushPair, hd, hix, hiy, hjx, hjy, fin_sub_fin, fin_mul_fin, fin_add_fin,
    mathAtan2_fin, mathCos_fin, mathSin_fin]
  exact ⟨inBounds_clamp _ _, inBounds_clamp _ _⟩

theorem pairStep_allInBounds (M : MathOps α) (i j : ℕ) (st : List (Node α) × Bool)
    (h : AllInBounds st.1) : AllInBounds (pairStep M i st j).1 := by
  unfold pairStep
  split
  · rename_i ni nj hi hj
    split_ifs
    · have hp := pushPair_inBounds M ni nj (h ni (List.getElem?_mem hi))
        (h nj (List.getElem?_mem hj))
      intro n hn
      rcases List.mem_or_eq_of_mem_set hn with hn | rfl
      · rcases List.mem_or_eq_of_mem_set hn with hn | rfl
        · exact h n hn
        · exact hp.1
      · exact hp.2
    · exact h
  · exact h

theorem relaxPass_allInBounds (M : MathOps α) (nodes : List (Node α)) (h : AllInBounds nodes) :
    AllInBounds (relaxPass M nodes).1 := by
  unfold relaxPass
  apply foldl_invariant (fun st : List (Node α) × Bool => AllInBounds st.1)
  · intro st i hst
    unfold innerLoop
    apply foldl_invariant (fun st : List (Node α) × Bool => AllInBounds st.1)
    · intro st j hst
      exact pairStep_allInBounds M i j st hst
    · exact hst
  · exact h

theorem spacingLoop_allInBounds (M : MathOps α) (budget : ℕ) :
    ∀ nodes : List (Node α), AllInBounds nodes → AllInBounds (spacingLoop M budget nodes).nodes := by
  induction budget with
  | zero => intro nodes h; exact h
  | succ b ih =>
    intro nodes h
    have hp := relaxPass_allInBounds M nodes h
    simp only [spacingLoop]
    split_ifs
    · exact ih _ hp
    · exact hp

/-- C2. When every node of the input lies in `[150, 1050] × [150, 590]`, so does every node
of the list returned by `applyDistanceAwareSpacing`, and so does every node after the loop has
run under any other iteration budget. -/
theorem applyDistanceAwareSpacing_allInBounds (M : MathOps α) (nodes : List (Node α))
    (h : AllInBounds nodes) :
    AllInBounds (applyDistanceAwareSpacing M nodes) ∧
      ∀ budget : ℕ, AllInBounds (spacingLoop M budget nodes).nodes :=
  ⟨spacingLoop_allInBounds M maxIterations nodes h,
    fun budget => spacingLoop_allInBounds M budget nodes h⟩

theorem cornerNodes_allInBounds : AllInBounds cornerNodes := by
  intro n hn
  simp only [cornerNodes, List.mem_cons, List.mem_singleton, List.not_mem_nil,
    or_false] at hn
  rcases hn with rfl | rfl
  · exact ⟨150, 150, rfl, rfl, by norm_num, by norm_num, by norm_num, by norm_num⟩
  · exact ⟨160, 150, rfl, rfl, by norm_num, by norm_num, by norm_num, by norm_num⟩

theorem applyDistanceAwareSpacing_allInBounds_witness :
    AllInBounds cornerNodes ∧
      AllInBounds (applyDistanceAwareSpacing realMath cornerNodes) ∧
      ∀ budget : ℕ, AllInBounds (spacingLoop realMath budget cornerNodes).nodes :=
  ⟨cornerNodes_allInBounds,
    applyDistanceAwareSpacing_allInBounds realMath cornerNodes cornerNodes_allInBounds⟩

/-- A fold whose steps either leave the state alone or raise the flag: when the flag is still
down at the end, nothing changed and every step found nothing to do. -/
theorem foldl_flag_false {σ β : Type} (Q : σ → β → Prop) (f : σ × Bool → β → σ × Bool)
    (hf : ∀ st x, (f st x).2 = false → f st x = st ∧ Q st.1 x) :
    ∀ (l : List β) (st : σ × Bool), (l.foldl f st).2 = false →
      l.foldl f st = st ∧ ∀ x ∈ l, Q st.1 x := by
  intro l
  induction l with
  | nil => intro st _; exact ⟨rfl, fun x hx => by cases hx⟩
  | cons y ys ih =>
    intro st h
    have h1 := ih (f st y) h
    have h2 := hf st y (by rw [← h1.1]; exact h)
    refine ⟨by rw [List.foldl_cons, h1.1, h2.1], ?_⟩
    intro x hx
    rcases List.mem_cons.mp hx with rfl | hx
    · exact h2.2
    · have := h1.2 x hx
      rw [h2.1] at this
      exact this

theorem pairStep_flag_false (M : MathOps α) (i : ℕ) (st : List (Node α) × Bool) (j : ℕ)
    (h : (pairStep M i st j).2 = false) :
    pairStep M i st j = st ∧
      ∀ ni nj : Node α, st.1[i]? = some ni → st.1[j]? = some nj → needsPush M ni nj = false := by
  unfold pairStep at h ⊢
  split at h
  · rename_i ni nj hi hj
    rw [hi, hj]
    by_cases hp : needsPush M ni nj = true
    · rw [if_pos hp] at h
      cases h
    · refine ⟨by simp only [if_neg hp], ?_⟩
      intro ni1 nj1 h1 h2
      cases h1
      cases h2
      simpa using hp
  · rename_i hne
    refine ⟨rfl, ?_⟩
    intro ni nj hi hj
    exact absurd hj (by intro hj; exact hne ni nj hi hj)

theorem relaxPass_flag_false (M : MathOps α) (nodes : List (Node α))
    (h : (relaxPass M nodes).2 = false) :
    (relaxPass M nodes).1 = nodes ∧ NoPairNeedsPush M nodes := by
  unfold relaxPass at h ⊢
  have houter := foldl_flag_false
    (fun (ns : List (Node α)) (i : ℕ) => ∀ j ∈ List.range' (i + 1) (ns.length - (i + 1)),
      ∀ ni nj : Node α, ns[i]? = some ni → ns[j]? = some nj → needsPush M ni nj = false)
    (innerLoop M)
    (by
      intro st i hst
      unfold innerLoop at hst ⊢
      exact foldl_flag_false
        (fun (ns : List (Node α)) (j : ℕ) =>
          ∀ ni nj : Node α, ns[i]? = some ni → ns[j]? = some nj → needsPush M ni nj = false)
        (pairStep M i) (pairStep_flag_false M i) _ st hst)
    (List.range' 0 nodes.length) (nodes, false) h
  refine ⟨by rw [houter.1], ?_⟩
  intro i j ni nj hij hi hj
  have hj_lt : j < nodes.length := (List.getElem?_eq_some.mp hj).1
  have hi_mem : i ∈ List.range' 0 nodes.length := by
    rw [List.mem_range'_1]; omega
  have hj_mem : j ∈ List.range' (i + 1) (nodes.length - (i + 1)) := by
    rw [List.mem_range'_1]; omega
  exact houter.2 i hi_mem j hj_mem ni nj hi hj

theorem spacingLoop_broke (M : MathOps α) (budget : ℕ) :
    ∀ nodes : List (Node α), (spacingLoop M budget nodes).broke = true →
      NoPairNeedsPush M (spacingLoop M budget nodes).nodes := by
  induction budget with
  | zero => intro nodes h; cases h
  | succ b ih =>
    intro nodes h
    simp only [spacingLoop] at h ⊢
    split_ifs at h ⊢ with hadj
    · exact ih _ h
    · have hp := relaxPass_flag_false M nodes (by simpa using hadj)
      show NoPairNeedsPush M (relaxPass M nodes).1
      rw [hp.1]
      exact hp.2

theorem spacingLoop_not_broke (M : MathOps α) (budget : ℕ) :
    ∀ nodes : List (Node α), (spacingLoop M budget nodes).broke = false →
      (spacingLoop M budget nodes).passes = budget := by
  induction budget with
  | zero => intro nodes _; rfl
  | succ b ih =>
    intro nodes h
    simp only [spacingLoop] at h ⊢
    split_ifs at h ⊢ with hadj
    show (spacingLoop M b (relaxPass M nodes).1).passes + 1 = b + 1
    rw [ih _ h]

theorem foldl_fixed {σ β : Type} (f : σ → β → σ) (s : σ) :
    ∀ l : List β, (∀ x ∈ l, f s x = s) → l.foldl f s = s := by
  intro l
  induction l with
  | nil => intro _; rfl
  | cons y ys ih =>
    intro h
    rw [List.foldl_cons, h y (List.mem_cons_self y ys)]
    exact ih (fun x hx => h x (List.mem_cons_of_mem y hx))

/-- A pass over a list in which no pair needs a push changes nothing and leaves `adjusted`
false. -/
theorem relaxPass_of_noPairNeedsPush (M : MathOps α) (nodes : List (Node α))
    (h : NoPairNeedsPush M nodes) : relaxPass M nodes = (nodes, false) := by
  unfold relaxPass
  apply foldl_fixed
  intro i _
  unfold innerLoop
  apply foldl_fixed
  intro j hj
  have hij : i < j := by
    rw [List.mem_range'_1] at hj
    omega
  unfold pairStep
  split
  · rename_i ni nj hi hj2
    rw [if_neg]
    rw [h i j ni nj hij hi hj2]
    exact Bool.false_ne_true
  · rfl

/-- When no pair needs a push the loop is left through `break` after its first pass, with
the nodes unchanged. -/
theorem spacingLoop_of_noPairNeedsPush (M : MathOps α) (budget : ℕ) (nodes : List (Node α))
    (h : NoPairNeedsPush M nodes) :
    spacingLoop M (budget + 1) nodes = { nodes := nodes, passes := 1, broke := true } := by
  have hp := relaxPass_of_noPairNeedsPush M nodes h
  simp only [spacingLoop, hp, Bool.false_eq_true, if_false]

/-- The test of line 31 on two nodes with real coordinates: it fails exactly when the
Euclidean distance of the two points is `0` or at least `128`. -/
theorem needsPush_real (n m : String) (a b c d : ℝ) (e f : JSNum ℝ) :
    needsPush realMath { name := n, x := fin a, y := fin b, distance := e }
        { name := m, x := fin c, y := fin d, distance := f } = false ↔
      (Real.sqrt ((c - a) * (c - a) + (d - b) * (d - b)) = 0 ∨
        128 ≤ Real.sqrt ((c - a) * (c - a) + (d - b) * (d - b))) := by
  have hd := pairDistance_fin realMath
    { name := n, x := fin a, y := fin b, distance := e }
    { name := m, x := fin c, y := fin d, distance := f } a b c d rfl rfl rfl rfl
  have h0 := Real.sqrt_nonneg ((c - a) * (c - a) + (d - b) * (d - b))
  unfold needsPush
  rw [hd]
  simp only [lt_fin, gt_fin, minDistance, realMath, Bool.and_eq_false_imp,
    decide_eq_true_eq, decide_eq_false_iff_not, not_lt, Nat.cast_ofNat]
  constructor
  · intro h
    by_cases h128 : Real.sqrt ((c - a) * (c - a) + (d - b) * (d - b)) < 128
    · exact Or.inl (le_antisymm (h h128) h0)
    · exact Or.inr (not_lt.mp h128)
  · rintro (h | h) hlt
    · exact h.le
    · exact absurd hlt (not_lt.mpr h)

theorem coincidentNodes_noPairNeedsPush : NoPairNeedsPush realMath coincidentNodes := by
  intro i j ni nj hij hi hj
  have hj2 : j < 2 := (List.getElem?_eq_some.mp hj).1
  obtain rfl : j = 1 := by omega
  obtain rfl : i = 0 := by omega
  simp only [coincidentNodes, List.getElem?_cons_zero, List.getElem?_cons_succ,
    Option.some.injEq] at hi hj
  subst hi hj
  exact (needsPush_real _ _ _ _ _ _ _ _).mpr (Or.inl (by norm_num))

/-- C10, as stated, fails: on two nodes placed at the same point the loop leaves through
`break` after its first pass, the nodes are returned as they were, and their distance is `0`,
which is less than `128`. -/
theorem spacingLoop_coincident_exits_early :
    (spacingLoop realMath maxIterations coincidentNodes).broke = true ∧
      (spacingLoop realMath maxIterations coincidentNodes).passes = 1 ∧
      applyDistanceAwareSpacing realMath coincidentNodes = coincidentNodes ∧
      ¬ ((∀ i j : ℕ, ∀ ni nj : Node ℝ, i < j →
            (applyDistanceAwareSpacing realMath coincidentNodes)[i]? = some ni →
            (applyDistanceAwareSpacing realMath coincidentNodes)[j]? = some nj →
            ∃ dist : ℝ, pairDistance realMath ni nj = fin dist ∧ 128 ≤ dist) ∨
          ((spacingLoop realMath maxIterations coincidentNodes).broke = false ∧
            (spacingLoop realMath maxIterations coincidentNodes).passes = maxIterations)) := by
  have hloop : spacingLoop realMath maxIterations coincidentNodes =
      { nodes := coincidentNodes, passes := 1, broke := true } :=
    spacingLoop_of_noPairNeedsPush realMath 69 coincidentNodes coincidentNodes_noPairNeedsPush
  have happly : applyDistanceAwareSpacing realMath coincidentNodes = coincidentNodes := by
    simp only [applyDistanceAwareSpacing, hloop]
  refine ⟨by rw [hloop], by rw [hloop], happly, ?_⟩
  rw [happly, hloop]
  rintro (h | h)
  · obtain ⟨dist, hd, h128⟩ := h 0 1
      { name := "A", x := fin 600, y := fin 375, distance := fin 0 }
      { name := "B", x := fin 600, y := fin 375, distance := fin 0 } (by decide) rfl rfl
    have hd0 := pairDistance_fin realMath
      { name := "A", x := fin 600, y := fin 375, distance := fin 0 }
      { name := "B", x := fin 600, y := fin 375, distance := fin 0 } 600 375 600 375
      rfl rfl rfl rfl
    rw [hd0] at hd
    have : realMath.sqrt ((600 - 600) * (600 - 600) + (375 - 375) * (375 - 375)) = 0 := by
      simp [realMath]
    rw [this] at hd
    cases hd
    norm_num at h128
  · exact absurd h.1 (by decide)

/-- After the loop either the whole budget of 70 passes was run without `break`, or the loop
was left through `break` and no pair of the returned nodes passes the test of line 31. -/
theorem spacingLoop_break_or_budget (M : MathOps α) (nodes : List (Node α)) :
    ((spacingLoop M maxIterations nodes).broke = false ∧
        (spacingLoop M maxIterations nodes).passes = maxIterations) ∨
      ((spacingLoop M maxIterations nodes).broke = true ∧
        NoPairNeedsPush M (applyDistanceAwareSpacing M nodes)) := by
  cases h : (spacingLoop M maxIterations nodes).broke with
  | false => exact Or.inl ⟨rfl, spacingLoop_not_broke M maxIterations nodes h⟩
  | true => exact Or.inr ⟨rfl, spacingLoop_broke M maxIterations nodes h⟩

theorem pushPair_inBounds_of_finite (M : MathOps α) (ni nj : Node α)
    (hi : FiniteNode ni) (hj : FiniteNode nj) :
    InBounds (pushPair M ni nj).1.x (pushPair M ni nj).1.y ∧
      InBounds (pushPair M ni nj).2.x (pushPair M ni nj).2.y := by
  obtain ⟨a, b, hix, hiy⟩ := hi
  obtain ⟨c, d, hjx, hjy⟩ := hj
  have hd := pairDistance_fin M ni nj a b c d hix hiy hjx hjy
  simp only [pushPair, hd, hix, hiy, hjx, hjy, fin_sub_fin, fin_mul_fin, fin_add_fin,
    mathAtan2_fin, mathCos_fin, mathSin_fin]
  exact ⟨inBounds_clamp _ _, inBounds_clamp _ _⟩

theorem finiteNode_of_inBounds (n : Node α) (h : InBounds n.x n.y) : FiniteNode n := by
  obtain ⟨a, b, hx, hy, -⟩ := h
  exact ⟨a, b, hx, hy⟩

theorem pairStep_allFinite (M : MathOps α) (i j : ℕ) (st : List (Node α) × Bool)
    (h : AllFinite st.1) : AllFinite (pairStep M i st j).1 := by
  unfold pairStep
  split
  · rename_i ni nj hi hj
    split_ifs
    · have hp := pushPair_inBounds_of_finite M ni nj (h ni (List.getElem?_mem hi))
        (h nj (List.getElem?_mem hj))
      intro n hn
      rcases List.mem_or_eq_of_mem_set hn with hn | rfl
      · rcases List.mem_or_eq_of_mem_set hn with hn | rfl
        · exact h n hn
        · exact finiteNode_of_inBounds _ hp.1
      · exact finiteNode_of_inBounds _ hp.2
    · exact h
  · exact h

theorem relaxPass_allFinite (M : MathOps α) (nodes : List (Node α)) (h : AllFinite nodes) :
    AllFinite (relaxPass M nodes).1 := by
  unfold relaxPass
  apply foldl_invariant (fun st : List (Node α) × Bool => AllFinite st.1)
  · intro st i hst
    unfold innerLoop
    apply foldl_invariant (fun st : List (Node α) × Bool => AllFinite st.1)
    · intro st j hst
      exact pairStep_allFinite M i j st hst
    · exact hst
  · exact h

theorem spacingLoop_allFinite (M : MathOps α) (budget : ℕ) :
    ∀ nodes : List (Node α), AllFinite nodes → AllFinite (spacingLoop M budget nodes).nodes := by
  induction budget with
  | zero => intro nodes h; exact h
  | succ b ih =>
    intro nodes h
    have hp := relaxPass_allFinite M nodes h
    simp only [spacingLoop]
    split_ifs
    · exact ih _ hp
    · exact hp

/-- Two nodes with real coordinates that fail the test of line 31 are at a distance that is
`0` or at least `128`. -/
theorem distance_of_not_needsPush (ni nj : Node ℝ) (hi : FiniteNode ni) (hj : FiniteNode nj)
    (h : needsPush realMath ni nj = false) :
    ∃ dist : ℝ, pairDistance realMath ni nj = fin dist ∧ (dist = 0 ∨ 128 ≤ dist) := by
  obtain ⟨a, b, hix, hiy⟩ := hi
  obtain ⟨c, e, hjx, hjy⟩ := hj
  have hd := pairDistance_fin realMath ni nj a b c e hix hiy hjx hjy
  have h0 : 0 ≤ Real.sqrt ((c - a) * (c - a) + (e - b) * (e - b)) := Real.sqrt_nonneg _
  refine ⟨Real.sqrt ((c - a) * (c - a) + (e - b) * (e - b)), hd, ?_⟩
  unfold needsPush at h
  rw [hd] at h
  simp only [lt_fin, gt_fin, minDistance, realMath, Bool.and_eq_false_imp,
    decide_eq_true_eq, decide_eq_false_iff_not, not_lt, Nat.cast_ofNat] at h
  by_cases h128 : Real.sqrt ((c - a) * (c - a) + (e - b) * (e - b)) < 128
  · exact Or.inl (le_antisymm (h h128) h0)
  · exact Or.inr (not_lt.mp h128)

/-- C10, amended. For nodes with real coordinates: after `applyDistanceAwareSpacing` either
all 70 passes were run without leaving the loop early, or the loop was left through `break`
and every pair of returned nodes has a real distance that is at least `128` or exactly `0`
(the two nodes coincide). -/
theorem applyDistanceAwareSpacing_postcondition (nodes : List (Node ℝ))
    (hfin : AllFinite nodes) :
    ((spacingLoop realMath maxIterations nodes).broke = false ∧
        (spacingLoop realMath maxIterations nodes).passes = maxIterations) ∨
      ((spacingLoop realMath maxIterations nodes).broke = true ∧
        ∀ i j : ℕ, ∀ ni nj : Node ℝ, i < j →
          (applyDistanceAwareSpacing realMath nodes)[i]? = some ni →
          (applyDistanceAwareSpacing realMath nodes)[j]? = some nj →
          ∃ dist : ℝ, pairDistance realMath ni nj = fin dist ∧ (dist = 0 ∨ 128 ≤ dist)) := by
  have hout : AllFinite (applyDistanceAwareSpacing realMath nodes) :=
    spacingLoop_allFinite realMath maxIterations nodes hfin
  rcases spacingLoop_break_or_budget realMath nodes with h | ⟨hb, hn⟩
  · exact Or.inl h
  · refine Or.inr ⟨hb, ?_⟩
    intro i j ni nj hij hi hj
    exact distance_of_not_needsPush ni nj (hout ni (List.getElem?_mem hi))
      (hout nj (List.getElem?_mem hj)) (hn i j ni nj hij hi hj)

theorem coincidentNodes_allFinite : AllFinite coincidentNodes := by
  intro n hn
  simp only [coincidentNodes, List.mem_cons, List.mem_singleton, List.not_mem_nil,
    or_false] at hn
  rcases hn with rfl | rfl
  · exact ⟨600, 375, rfl, rfl⟩
  · exact ⟨600, 375, rfl, rfl⟩

theorem applyDistanceAwareSpacing_postcondition_witness :
    AllFinite coincidentNodes ∧
      (((spacingLoop realMath maxIterations coincidentNodes).broke = false ∧
          (spacingLoop realMath maxIterations coincidentNodes).passes = maxIterations) ∨
        ((spacingLoop realMath maxIterations coincidentNodes).broke = true ∧
          ∀ i j : ℕ, ∀ ni nj : Node ℝ, i < j →
            (applyDistanceAwareSpacing realMath coincidentNodes)[i]? = some ni →
            (applyDistanceAwareSpacing realMath coincidentNodes)[j]? = some nj →
            ∃ dist : ℝ, pairDistance realMath ni nj = fin dist ∧ (dist = 0 ∨ 128 ≤ dist))) :=
  ⟨coincidentNodes_allFinite,
    applyDistanceAwareSpacing_postcondition coincidentNodes coincidentNodes_allFinite⟩

/-! ## The scroll tick, case by case -/

/-- C14. One tick gives `min (p + 0.015) (N - 1)` when only the down flag is held,
`max (p - 0.015) 0` when only the up flag is held, and leaves `p` alone when neither is. -/
theorem animate_cases (N : ℕ) (p : α) :
    animate N true false p = min (p + 0.015) ((N : α) - 1) ∧
      animate N false true p = max (p - 0.015) 0 ∧
      animate N false false p = p :=
  ⟨rfl, rfl, rfl⟩

/-- C15. With both flags held the tick is the down tick: the position becomes
`min (p + 0.015) (N - 1)` and the up branch is not taken. -/
theorem animate_both_held (N : ℕ) (p : α) :
    animate N true true p = min (p + 0.015) ((N : α) - 1) ∧
      animate N true true p = animate N true false p :=
  ⟨rfl, rfl⟩

/-! ## The boundary at offset 1 -/

/-- C13, as stated, fails: at offset `1` the page has opacity `1` and zIndex `20`, just above
(at `1.001`) it has opacity `0` and zIndex `5`, so the two do not agree on all of translateY,
scale, opacity and zIndex. -/
theorem pageStyle_boundary_opacity_differs :
    (pageStyle (1 : ℚ)).opacity = 1 ∧ (pageStyle (1.001 : ℚ)).opacity = 0 ∧
      (pageStyle (1 : ℚ)).zIndex = 20 ∧ (pageStyle (1.001 : ℚ)).zIndex = 5 ∧
      ¬ ((pageStyle (1 : ℚ)).translateY = (pageStyle (1.001 : ℚ)).translateY ∧
          (pageStyle (1 : ℚ)).scale = (pageStyle (1.001 : ℚ)).scale ∧
          (pageStyle (1 : ℚ)).opacity = (pageStyle (1.001 : ℚ)).opacity ∧
          (pageStyle (1 : ℚ)).zIndex = (pageStyle (1.001 : ℚ)).zIndex) := by
  have h1 : pageStyle (1 : ℚ) =
      { translateY := 1 * 100, scale := 0.85 + ((1 - 1) * 0.15), opacity := 1, zIndex := 20,
        visibility := .visible } := by
    unfold pageStyle
    rw [if_neg (by norm_num), if_pos (by norm_num)]
  have h2 : pageStyle (1.001 : ℚ) =
      { translateY := 100, scale := 0.85, opacity := 0, zIndex := 5, visibility := .hidden } := by
    unfold pageStyle
    rw [if_pos (by norm_num)]
  rw [h1, h2]
  refine ⟨rfl, rfl, rfl, rfl, ?_⟩
  rintro ⟨-, -, -, h⟩
  exact absurd h (by decide)

/-- C13, amended. The attributes at offset `1` and at any offset above `1` agree on
translateY (`100`) and on scale (`0.85`); they differ in opacity (`1` against `0`), in zIndex
(`20` against `5`) and in visibility (visible against hidden). -/
theorem pageStyle_boundary_one (offset : α) (h : 1 < offset) :
    (pageStyle (1 : α)).translateY = (pageStyle offset).translateY ∧
      (pageStyle (1 : α)).scale = (pageStyle offset).scale ∧
      (pageStyle (1 : α)).opacity = 1 ∧ (pageStyle offset).opacity = 0 ∧
      (pageStyle (1 : α)).zIndex = 20 ∧ (pageStyle offset).zIndex = 5 ∧
      (pageStyle (1 : α)).visibility = .visible ∧ (pageStyle offset).visibility = .hidden := by
  have h1 : pageStyle (1 : α) =
      { translateY := 1 * 100, scale := 0.85 + ((1 - 1) * 0.15), opacity := 1, zIndex := 20,
        visibility := .visible } := by
    unfold pageStyle
    rw [if_neg (by norm_num), if_pos (by norm_num)]
  have h2 : pageStyle offset =
      { translateY := 100, scale := 0.85, opacity := 0, zIndex := 5, visibility := .hidden } := by
    unfold pageStyle
    rw [if_pos h]
  rw [h1, h2]
  refine ⟨by norm_num, by norm_num, rfl, rfl, rfl, rfl, rfl, rfl⟩

theorem pageStyle_boundary_one_witness :
    (1 : ℚ) < 2 ∧
      (pageStyle (1 : ℚ)).translateY = (pageStyle (2 : ℚ)).translateY ∧
      (pageStyle (1 : ℚ)).scale = (pageStyle (2 : ℚ)).scale ∧
      (pageStyle (1 : ℚ)).opacity = 1 ∧ (pageStyle (2 : ℚ)).opacity = 0 ∧
      (pageStyle (1 : ℚ)).zIndex = 20 ∧ (pageStyle (2 : ℚ)).zIndex = 5 ∧
      (pageStyle (1 : ℚ)).visibility = .visible ∧ (pageStyle (2 : ℚ)).visibility = .hidden :=
  ⟨by norm_num, pageStyle_boundary_one 2 (by norm_num)⟩

/-! ## The placement formula -/

theorem placeRole_eq_angle (M : MathOps α) (xRatio yRatio : JSNum α)
    (distance : Option (JSNum α)) (index : ℕ) :
    placeRole M xRatio yRatio distance index =
      (clampX (fin (WIDTH : α) / fin 2 +
          baseDistance distance * fin 35 * mathCos M (placementAngle M xRatio yRatio index)),
        clampY (fin (HEIGHT : α) / fin 2 +
          baseDistance distance * fin 35 * mathSin M (placementAngle M xRatio yRatio index))) :=
  rfl

theorem placementAngle_fin (M : MathOps α) (xr yr : α) (index : ℕ) :
    placementAngle M (fin xr) (fin yr) index =
      fin (M.atan2 (yr - 0.5) (xr - 0.5) + 0.1 * (index : α)) := by
  simp only [placementAngle, fin_sub_fin, mathAtan2_fin, fin_add_fin, mul_comm (index : α)]

theorem placeRole_of_baseDistance (M : MathOps α) (xr yr dv : α) (dist : Option (JSNum α))
    (hb : baseDistance dist = fin dv) (index : ℕ) :
    placeRole M (fin xr) (fin yr) dist index =
      (fin (max 150 (min 1050 (600 + dv * 35 *
          M.cos (M.atan2 (yr - 0.5) (xr - 0.5) + 0.1 * (index : α))))),
        fin (max 150 (min 590 (375 + dv * 35 *
          M.sin (M.atan2 (yr - 0.5) (xr - 0.5) + 0.1 * (index : α)))))) := by
  rw [placeRole_eq_angle, placementAngle_fin, hb]
  simp only [fin_mul_fin, mathCos_fin, mathSin_fin, fin_add_fin,
    fin_div_fin _ _ (two_ne_zero : (2 : α) ≠ 0), clampX_fin, clampY_fin, WIDTH, HEIGHT]
  have hw : ((1200 : ℕ) : α) / 2 = 600 := by norm_num
  have hh : ((750 : ℕ) : α) / 2 = 375 := by norm_num
  rw [hw, hh]

/-- C16. For real ratios, a list index `i` and a real distance hint `d`, read as `5` when the
property is absent, the coordinate is
`(clamp (600 + 35 d cos a) 150 1050, clamp (375 + 35 d sin a) 150 590)` with
`a = atan2 (yRatio - 0.5) (xRatio - 0.5) + 0.1 i`, the clamp being `max lo (min hi v)`. -/
theorem placeRole_formula (M : MathOps α) (xr yr : α) (d : Option α) (index : ℕ) :
    placeRole M (fin xr) (fin yr) (d.map fin) index =
      (fin (max 150 (min 1050 (600 + 35 * d.getD 5 *
          M.cos (M.atan2 (yr - 0.5) (xr - 0.5) + 0.1 * (index : α))))),
        fin (max 150 (min 590 (375 + 35 * d.getD 5 *
          M.sin (M.atan2 (yr - 0.5) (xr - 0.5) + 0.1 * (index : α)))))) := by
  cases d with
  | none =>
    rw [Option.map_none', placeRole_of_baseDistance M xr yr 5 none rfl index,
      Option.getD_none, mul_comm (5 : α) 35]
  | some v =>
    rw [Option.map_some', placeRole_of_baseDistance M xr yr v (some (fin v)) rfl index,
      Option.getD_some, mul_comm v 35]

/-! ## Coincident nodes -/

theorem sub_self_fin_or_nan (v : JSNum α) : v - v = fin 0 ∨ v - v = nan := by
  cases v with
  | fin a => left; rw [fin_sub_fin, sub_self]
  | nan => right; rfl
  | pinf => right; rfl
  | ninf => right; rfl

theorem mathSqrt_nan (M : MathOps α) : mathSqrt M (nan : JSNum α) = nan := rfl

theorem lt_nan_left (a : JSNum α) : lt (nan : JSNum α) a = false := by
  cases a <;> rfl

/-- Two nodes with the same coordinate are never pushed: their distance is `0` (or `NaN`
when the coordinate is not finite). -/
theorem needsPush_same_coordinate (ni nj : Node ℝ) (hx : ni.x = nj.x) (hy : ni.y = nj.y) :
    needsPush realMath ni nj = false := by
  have hd : pairDistance realMath ni nj = fin 0 ∨ pairDistance realMath ni nj = nan := by
    unfold pairDistance
    rw [hx, hy]
    rcases sub_self_fin_or_nan nj.x with h1 | h1 <;>
      rcases sub_self_fin_or_nan nj.y with h2 | h2 <;> rw [h1, h2]
    · left
      simp [mathSqrt, realMath]
    · right
      simp [mathSqrt_nan]
    · right
      simp [mathSqrt_nan]
    · right
      simp [mathSqrt_nan]
  unfold needsPush
  rcases hd with h | h <;> rw [h]
  · simp
  · simp [lt_nan_left]

theorem noPairNeedsPush_of_sameCoordinates (nodes : List (Node ℝ))
    (h : SameCoordinates nodes) : NoPairNeedsPush realMath nodes := by
  intro i j ni nj _ hi hj
  have hc := h ni (List.getElem?_mem hi) nj (List.getElem?_mem hj)
  exact needsPush_same_coordinate ni nj hc.1 hc.2

/-- C18. A pair of nodes at the same coordinate is never adjusted; on a list whose nodes all
share one coordinate the first pass adjusts nothing, the loop is left through `break` after
that pass, and the list is returned unchanged. -/
theorem applyDistanceAwareSpacing_sameCoordinates (nodes : List (Node ℝ))
    (h : SameCoordinates nodes) :
    (∀ ni nj : Node ℝ, ni.x = nj.x → ni.y = nj.y → needsPush realMath ni nj = false) ∧
      relaxPass realMath nodes = (nodes, false) ∧
      spacingLoop realMath maxIterations nodes = { nodes := nodes, passes := 1, broke := true } ∧
      applyDistanceAwareSpacing realMath nodes = nodes := by
  have hn := noPairNeedsPush_of_sameCoordinates nodes h
  have hl : spacingLoop realMath maxIterations nodes =
      { nodes := nodes, passes := 1, broke := true } :=
    spacingLoop_of_noPairNeedsPush realMath 69 nodes hn
  refine ⟨needsPush_same_coordinate, relaxPass_of_noPairNeedsPush realMath nodes hn, hl, ?_⟩
  unfold applyDistanceAwareSpacing
  rw [hl]

theorem coincidentNodes_sameCoordinates : SameCoordinates coincidentNodes := by
  intro n hn m hm
  simp only [coincidentNodes, List.mem_cons, List.mem_singleton, List.not_mem_nil,
    or_false] at hn hm
  rcases hn with rfl | rfl <;> rcases hm with rfl | rfl <;> exact ⟨rfl, rfl⟩

theorem applyDistanceAwareSpacing_sameCoordinates_witness :
    SameCoordinates coincidentNodes ∧
      (∀ ni nj : Node ℝ, ni.x = nj.x → ni.y = nj.y → needsPush realMath ni nj = false) ∧
      relaxPass realMath coincidentNodes = (coincidentNodes, false) ∧
      spacingLoop realMath maxIterations coincidentNodes =
        { nodes := coincidentNodes, passes := 1, broke := true } ∧
      applyDistanceAwareSpacing realMath coincidentNodes = coincidentNodes :=
  ⟨coincidentNodes_sameCoordinates,
    applyDistanceAwareSpacing_sameCoordinates coincidentNodes coincidentNodes_sameCoordinates⟩

/-! ## One role, end to end -/

theorem noPairNeedsPush_of_length_le_one (M : MathOps α) (nodes : List (Node α))
    (h : nodes.length ≤ 1) : NoPairNeedsPush M nodes := by
  intro i j ni nj hij _ hj
  have hj1 : j < nodes.length := (List.getElem?_eq_some.mp hj).1
  omega

theorem realMath_atan2_zero : realMath.atan2 0 0 = 0 := by
  show Complex.arg ⟨0, 0⟩ = 0
  exact Complex.arg_zero

/-- C12. For the list made of the single role `A` with metrics `(5, 5, 5, 5)` and distance
`5`: both ratios are `0.5`; the role is placed at `(775, 375)`, inside the canvas box; the
first pass of the resolver adjusts nothing, the loop is left after that pass, and the
coordinate is returned unchanged. -/
theorem singleRole_end_to_end :
    singleRoleList.map projectMetrics = [(fin 0.5, fin 0.5)] ∧
      positionedRoles realMath singleRoleList = [singleRoleNode] ∧
      InBounds singleRoleNode.x singleRoleNode.y ∧
      relaxPass realMath [singleRoleNode] = ([singleRoleNode], false) ∧
      spacingLoop realMath maxIterations [singleRoleNode] =
        { nodes := [singleRoleNode], passes := 1, broke := true } ∧
      spreadRoles realMath singleRoleList = [singleRoleNode] := by
  have hproj : projectMetrics
      ({ name := "A", technical := some (fin 5), creative := some (fin 5),
         business := some (fin 5), customer := some (fin 5),
         distance := some (fin 5) } : Role ℝ) = (fin 0.5, fin 0.5) := by
    rw [projectMetrics_fin _ _ _ _ _ _ (by norm_num) (by norm_num)]
    norm_num
  have hplace : placeRole realMath (fin 0.5) (fin 0.5) (some (fin (5 : ℝ))) 0 =
      (fin 775, fin 375) := by
    have h := placeRole_of_baseDistance realMath (0.5 : ℝ) 0.5 5 (some (fin 5)) rfl 0
    simp only [sub_self, realMath_atan2_zero, Nat.cast_zero, mul_zero, add_zero] at h
    rw [h]
    simp only [realMath, Real.cos_zero, Real.sin_zero]
    norm_num
  have hpos : positionedRoles realMath singleRoleList = [singleRoleNode] := by
    simp only [positionedRoles, singleRoleList, List.enum, List.enumFrom, List.map_cons,
      List.map_nil, positionRole, hproj, hplace, baseDistance, singleRoleNode]
  have hn : NoPairNeedsPush realMath [singleRoleNode] :=
    noPairNeedsPush_of_length_le_one realMath _ (le_refl 1)
  have hl : spacingLoop realMath maxIterations [singleRoleNode] =
      { nodes := [singleRoleNode], passes := 1, broke := true } :=
    spacingLoop_of_noPairNeedsPush realMath 69 _ hn
  refine ⟨?_, hpos, ?_, relaxPass_of_noPairNeedsPush realMath _ hn, hl, ?_⟩
  · simp only [singleRoleList, List.map_cons, List.map_nil, hproj]
  · exact ⟨775, 375, rfl, rfl, by norm_num, by norm_num, by norm_num, by norm_num⟩
  · unfold spreadRoles applyDistanceAwareSpacing
    rw [hpos, hl]

/-! ## Roles with tied metrics -/

theorem sub_half_ne_nan (v : JSNum α) (h : v ≠ nan) : v - fin 0.5 ≠ nan := by
  cases v with
  | fin a => intro h1; cases h1
  | nan => exact absurd rfl h
  | pinf => intro h1; cases h1
  | ninf => intro h1; cases h1

theorem mathAtan2_fin_of_ne_nan (M : MathOps α) (y x : JSNum α) (hy : y ≠ nan) (hx : x ≠ nan) :
    ∃ t : α, mathAtan2 M y x = fin t := by
  cases y <;> cases x <;> first
    | exact absurd rfl hy
    | exact absurd rfl hx
    | exact ⟨_, rfl⟩
    | (simp only [mathAtan2]; split_ifs <;> exact ⟨_, rfl⟩)

theorem placementAngle_ne_of_index_ne (M : MathOps α) (xRatio yRatio : JSNum α)
    (hx : xRatio ≠ nan) (hy : yRatio ≠ nan) (i j : ℕ) (hij : i ≠ j) :
    placementAngle M xRatio yRatio i ≠ placementAngle M xRatio yRatio j := by
  obtain ⟨t, ht⟩ := mathAtan2_fin_of_ne_nan M _ _ (sub_half_ne_nan yRatio hy)
    (sub_half_ne_nan xRatio hx)
  unfold placementAngle
  rw [ht, fin_add_fin, fin_add_fin]
  intro h
  have h1 : t + (i : α) * 0.1 = t + (j : α) * 0.1 := by
    injection h
  have h2 : (i : α) * 0.1 = (j : α) * 0.1 := add_left_cancel h1
  have h3 : (i : α) = (j : α) := by
    have h01 : (0.1 : α) ≠ 0 := by norm_num
    exact mul_right_cancel₀ h01 h2
  exact hij (Nat.cast_injective h3)

theorem roleAngle_congr (M : MathOps α) (r s : Role α) (h : SameMetrics r s) (i : ℕ) :
    roleAngle M r i = roleAngle M s i := by
  obtain ⟨h1, h2, h3, h4⟩ := h
  simp only [roleAngle, projectMetrics, h1, h2, h3, h4]

theorem positionRole_tiedRole (name : String) (index : ℕ) :
    positionRole realMath (tiedRole name) index = centreNode name := by
  have hproj : projectMetrics (tiedRole name) = (fin (1 / 2), fin (1 / 2)) := by
    unfold tiedRole
    rw [projectMetrics_fin _ _ _ _ _ _ (by norm_num) (by norm_num)]
    norm_num
  have hplace := placeRole_zero_distance realMath (1 / 2 : ℝ) (1 / 2) index
  simp only [positionRole, hproj]
  simp only [tiedRole, hplace, baseDistance, centreNode]

theorem positionedRoles_threeTiedRoles :
    positionedRoles realMath threeTiedRoles = [centreNode "A", centreNode "B", centreNode "C"] := by
  simp only [positionedRoles, threeTiedRoles, List.enum, List.enumFrom, List.map_cons,
    List.map_nil, positionRole_tiedRole]

theorem centreNodes_sameCoordinates :
    SameCoordinates [centreNode "A", centreNode "B", centreNode "C"] := by
  intro n hn m hm
  simp only [List.mem_cons, List.mem_singleton, List.not_mem_nil, or_false] at hn hm
  rcases hn with rfl | rfl | rfl <;> rcases hm with rfl | rfl | rfl <;> exact ⟨rfl, rfl⟩

/-- C11, as stated, fails: three roles with the metric vector `(5, 5, 5, 5)` and the distance
hint `0`, at the list indices 0, 1, 2, are all placed at the centre `(600, 375)`; the resolver
returns them there, so the first two final coordinates are at distance `0`, not more. -/
theorem threeTiedRoles_collapse :
    SameMetrics (tiedRole "A") (tiedRole "B") ∧ SameMetrics (tiedRole "A") (tiedRole "C") ∧
      spreadRoles realMath threeTiedRoles =
        [centreNode "A", centreNode "B", centreNode "C"] ∧
      pairDistance realMath (centreNode "A") (centreNode "B") = fin 0 ∧
      ¬ (∀ i j : ℕ, ∀ ni nj : Node ℝ, i < j →
          (spreadRoles realMath threeTiedRoles)[i]? = some ni →
          (spreadRoles realMath threeTiedRoles)[j]? = some nj →
          ∃ dist : ℝ, pairDistance realMath ni nj = fin dist ∧ 0 < dist) := by
  have hspread : spreadRoles realMath threeTiedRoles =
      [centreNode "A", centreNode "B", centreNode "C"] := by
    unfold spreadRoles applyDistanceAwareSpacing
    rw [positionedRoles_threeTiedRoles]
    have hl := spacingLoop_of_noPairNeedsPush realMath 69 _
      (noPairNeedsPush_of_sameCoordinates _ centreNodes_sameCoordinates)
    show (spacingLoop realMath (69 + 1) _).nodes = _
    rw [hl]
  have hdist : pairDistance realMath (centreNode "A") (centreNode "B") = fin 0 := by
    rw [pairDistance_fin realMath _ _ 600 375 600 375 rfl rfl rfl rfl]
    simp [realMath]
  refine ⟨⟨rfl, rfl, rfl, rfl⟩, ⟨rfl, rfl, rfl, rfl⟩, hspread, hdist, ?_⟩
  rw [hspread]
  intro h
  obtain ⟨dist, hd, hpos⟩ := h 0 1 (centreNode "A") (centreNode "B") (by decide) rfl rfl
  rw [hdist] at hd
  cases hd
  exact lt_irrefl _ hpos

/-- C11, amended. Three roles with one metric vector whose two ratios are numbers (not
`NaN`), at three different list indices, get three pairwise distinct placement angles. -/
theorem tiedRoles_angles_distinct (M : MathOps α) (r1 r2 r3 : Role α)
    (h12 : SameMetrics r1 r2) (h13 : SameMetrics r1 r3)
    (hx : (projectMetrics r1).1 ≠ nan) (hy : (projectMetrics r1).2 ≠ nan)
    (i j k : ℕ) (hij : i ≠ j) (hik : i ≠ k) (hjk : j ≠ k) :
    roleAngle M r1 i ≠ roleAngle M r2 j ∧ roleAngle M r1 i ≠ roleAngle M r3 k ∧
      roleAngle M r2 j ≠ roleAngle M r3 k := by
  rw [← roleAngle_congr M r1 r2 h12 j, ← roleAngle_congr M r1 r3 h13 k]
  exact ⟨placementAngle_ne_of_index_ne M _ _ hx hy i j hij,
    placementAngle_ne_of_index_ne M _ _ hx hy i k hik,
    placementAngle_ne_of_index_ne M _ _ hx hy j k hjk⟩

theorem projectMetrics_tiedRole (name : String) :
    projectMetrics (tiedRole name) = (fin (1 / 2), fin (1 / 2)) := by
  unfold tiedRole
  rw [projectMetrics_fin _ _ _ _ _ _ (by norm_num) (by norm_num)]
  norm_num

theorem tiedRoles_angles_distinct_witness :
    roleAngle realMath (tiedRole "A") 0 ≠ roleAngle realMath (tiedRole "B") 1 ∧
      roleAngle realMath (tiedRole "A") 0 ≠ roleAngle realMath (tiedRole "C") 2 ∧
      roleAngle realMath (tiedRole "B") 1 ≠ roleAngle realMath (tiedRole "C") 2 :=
  tiedRoles_angles_distinct realMath (tiedRole "A") (tiedRole "B") (tiedRole "C")
    ⟨rfl, rfl, rfl, rfl⟩ ⟨rfl, rfl, rfl, rfl⟩
    (by rw [projectMetrics_tiedRole]; intro h; cases h)
    (by rw [projectMetrics_tiedRole]; intro h; cases h)
    0 1 2 (by decide) (by decide) (by decide)

/-! ## Stacking of the visible pages -/

theorem pageStyle_visible_iff (o : α) :
    (pageStyle o).visibility = .visible ↔ -1 ≤ o ∧ o ≤ 1 := by
  have hc : (-0.01 : α) = -(1 / 100) := by norm_num
  unfold pageStyle
  split_ifs with h1 h2 h3 h4
  · constructor
    · intro h; cases h
    · rintro ⟨_, h⟩; exact absurd h1 (not_lt.mpr h)
  · exact ⟨fun _ => ⟨by linarith, not_lt.mp h1⟩, fun _ => rfl⟩
  · rw [ge_iff_le, hc] at h3
    exact ⟨fun _ => ⟨by linarith, not_lt.mp h1⟩, fun _ => rfl⟩
  · exact ⟨fun _ => ⟨h4, not_lt.mp h1⟩, fun _ => rfl⟩
  · constructor
    · intro h; cases h
    · rintro ⟨h, _⟩; exact absurd h h4

theorem pageStyle_zIndex_of_visible (o : α) (h : (pageStyle o).visibility = .visible) :
    ((pageStyle o).zIndex = 20 ∧ 0 < o) ∨
      ((pageStyle o).zIndex = 10 ∧ -(1 / 100) ≤ o ∧ o ≤ 0) ∨
      ((pageStyle o).zIndex = 5 ∧ o < -(1 / 100)) := by
  have hc : (-0.01 : α) = -(1 / 100) := by norm_num
  unfold pageStyle at h ⊢
  rw [hc] at h ⊢
  split_ifs at h ⊢ with h1 h2 h3 h4
  · exact Or.inl ⟨rfl, h2⟩
  · exact Or.inr (Or.inl ⟨rfl, h3, not_lt.mp h2⟩)
  · exact Or.inr (Or.inr ⟨rfl, not_le.mp h3⟩)

theorem pageStyle_same_zIndex_close (o1 o2 : α)
    (h1 : (pageStyle o1).visibility = .visible) (h2 : (pageStyle o2).visibility = .visible)
    (hz : (pageStyle o1).zIndex = (pageStyle o2).zIndex) : o1 - o2 < 1 ∧ o2 - o1 < 1 := by
  have hb1 := (pageStyle_visible_iff o1).mp h1
  have hb2 := (pageStyle_visible_iff o2).mp h2
  rcases pageStyle_zIndex_of_visible o1 h1 with ⟨z1, c1⟩ | ⟨z1, c1, d1⟩ | ⟨z1, c1⟩ <;>
    rcases pageStyle_zIndex_of_visible o2 h2 with ⟨z2, c2⟩ | ⟨z2, c2, d2⟩ | ⟨z2, c2⟩ <;>
    rw [z1, z2] at hz <;>
    first
    | omega
    | (constructor <;> linarith [hb1.1, hb1.2, hb2.1, hb2.2])

theorem length_le_three_of_window (l : List ℕ) (hs : l.Pairwise (· < ·))
    (hw : ∀ x ∈ l, ∀ y ∈ l, x ≤ y + 2) : l.length ≤ 3 := by
  match l, hs, hw with
  | [], _, _ => simp
  | [_], _, _ => simp
  | [_, _], _, _ => simp
  | [_, _, _], _, _ => simp
  | a :: b :: c :: d :: t, hs, hw =>
    exfalso
    have hab : a < b := (List.pairwise_cons.mp hs).1 b (by simp)
    have hs2 := (List.pairwise_cons.mp hs).2
    have hbc : b < c := (List.pairwise_cons.mp hs2).1 c (by simp)
    have hs3 := (List.pairwise_cons.mp hs2).2
    have hcd : c < d := (List.pairwise_cons.mp hs3).1 d (by simp)
    have hda : d ≤ a + 2 := hw d (by simp) a (by simp)
    omega

theorem pageStyles_getElem? (N : ℕ) (p : α) (i : ℕ) (s : PageStyle α)
    (h : (pageStyles N p)[i]? = some s) : i < N ∧ s = pageStyle (pageOffset i p) := by
  unfold pageStyles at h
  rw [List.getElem?_map] at h
  cases hi : (List.range N)[i]? with
  | none => rw [hi] at h; cases h
  | some k =>
    rw [hi] at h
    have hk := List.getElem?_eq_some.mp hi
    have hlt : i < N := by simpa using hk.1
    have hki : k = i := by
      rw [← hk.2]
      simp
    subst hki
    refine ⟨hlt, ?_⟩
    simpa using h.symm

/-- C20. For every page count and every scroll position, at most three pages of the stack are
visible, and two different visible pages never have the same zIndex. -/
theorem pageStyles_stacking (N : ℕ) (p : α) :
    (visibleStyles N p).length ≤ 3 ∧
      ∀ i j : ℕ, ∀ s t : PageStyle α, i ≠ j →
        (pageStyles N p)[i]? = some s → (pageStyles N p)[j]? = some t →
        s.visibility = .visible → t.visibility = .visible → s.zIndex ≠ t.zIndex := by
  constructor
  · unfold visibleStyles pageStyles
    rw [List.filter_map, List.length_map]
    apply length_le_three_of_window
    · exact (List.pairwise_lt_range N).sublist (List.filter_sublist _)
    · intro x hx y hy
      have hvx := (List.mem_filter.mp hx).2
      have hvy := (List.mem_filter.mp hy).2
      simp only [Function.comp_apply, decide_eq_true_eq] at hvx hvy
      have hx1 := (pageStyle_visible_iff _).mp hvx
      have hy1 := (pageStyle_visible_iff _).mp hvy
      unfold pageOffset at hx1 hy1
      have hxy : (x : α) ≤ (y : α) + 2 := by linarith [hx1.2, hy1.1]
      exact_mod_cast hxy
  · intro i j s t hij hs ht hvs hvt hz
    obtain ⟨_, rfl⟩ := pageStyles_getElem? N p i s hs
    obtain ⟨_, rfl⟩ := pageStyles_getElem? N p j t ht
    have hclose := pageStyle_same_zIndex_close _ _ hvs hvt hz
    unfold pageOffset at hclose
    have h1 : (i : α) < (j : α) + 1 := by linarith [hclose.1]
    have h2 : (j : α) < (i : α) + 1 := by linarith [hclose.2]
    have h1n : i < j + 1 := by exact_mod_cast h1
    have h2n : j < i + 1 := by exact_mod_cast h2
    omega

/-! ## One adjustment of a pair, over the reals -/

theorem pushPair_eq_clamp_rawPush (M : MathOps α) (ni nj : Node α) :
    pushPair M ni nj =
      ({ ni with x := clampX (rawPush M ni nj).1.1, y := clampY (rawPush M ni nj).1.2 },
        { nj with x := clampX (rawPush M ni nj).2.1, y := clampY (rawPush M ni nj).2.2 }) :=
  rfl

theorem pairDistance_nodeAt (M : MathOps α) (n m : String) (di dj : JSNum α) (a b c e : α) :
    pairDistance M (nodeAt n a b di) (nodeAt m c e dj) =
      fin (M.sqrt ((c - a) * (c - a) + (e - b) * (e - b))) :=
  pairDistance_fin M _ _ a b c e rfl rfl rfl rfl

theorem realMath_cos_atan2 (dx dy d : ℝ) (hd : d = Real.sqrt (dx * dx + dy * dy)) (h0 : 0 < d) :
    realMath.cos (realMath.atan2 dy dx) = dx / d ∧
      realMath.sin (realMath.atan2 dy dx) = dy / d := by
  have habs : Complex.abs ⟨dx, dy⟩ = d := by
    rw [Complex.abs_apply, Complex.normSq_mk, hd]
  have hne : (⟨dx, dy⟩ : ℂ) ≠ 0 := by
    intro h
    rw [h, map_zero] at habs
    exact h0.ne habs
  constructor
  · show Real.cos (Complex.arg ⟨dx, dy⟩) = dx / d
    rw [Complex.cos_arg hne, habs]
  · show Real.sin (Complex.arg ⟨dx, dy⟩) = dy / d
    rw [Complex.sin_arg, habs]

theorem rawPush_real (n m : String) (di dj : JSNum ℝ) (a b c e d : ℝ)
    (hd : d = Real.sqrt ((c - a) * (c - a) + (e - b) * (e - b))) (h0 : 0 < d) :
    rawPush realMath (nodeAt n a b di) (nodeAt m c e dj) =
      ((fin (a - 0.4 * (128 - d) * ((c - a) / d)), fin (b - 0.4 * (128 - d) * ((e - b) / d))),
        (fin (c + 0.4 * (128 - d) * ((c - a) / d)),
          fin (e + 0.4 * (128 - d) * ((e - b) / d)))) := by
  have htrig := realMath_cos_atan2 (c - a) (e - b) d hd h0
  have hdist : pairDistance realMath (nodeAt n a b di) (nodeAt m c e dj) = fin d := by
    rw [pairDistance_nodeAt, hd]
    rfl
  simp only [rawPush, hdist]
  simp only [nodeAt, fin_sub_fin, mathAtan2_fin, mathCos_fin, mathSin_fin, fin_mul_fin,
    fin_add_fin, htrig.1, htrig.2, minDistance, Nat.cast_ofNat]
  refine Prod.ext (Prod.ext ?_ ?_) (Prod.ext ?_ ?_) <;> simp only <;> congr 1 <;> ring

/-- The distance of the two raw positions written by one adjustment. -/
theorem pushed_distance (a b c e d : ℝ)
    (hd : d = Real.sqrt ((c - a) * (c - a) + (e - b) * (e - b))) (h0 : 0 < d) :
    Real.sqrt
        (((c + 0.4 * (128 - d) * ((c - a) / d)) - (a - 0.4 * (128 - d) * ((c - a) / d))) *
            ((c + 0.4 * (128 - d) * ((c - a) / d)) - (a - 0.4 * (128 - d) * ((c - a) / d))) +
          ((e + 0.4 * (128 - d) * ((e - b) / d)) - (b - 0.4 * (128 - d) * ((e - b) / d))) *
            ((e + 0.4 * (128 - d) * ((e - b) / d)) - (b - 0.4 * (128 - d) * ((e - b) / d)))) =
      d + 0.8 * (128 - d) := by
  have hsq : d * d = (c - a) * (c - a) + (e - b) * (e - b) := by
    rw [hd]
    exact Real.mul_self_sqrt (add_nonneg (mul_self_nonneg _) (mul_self_nonneg _))
  have hpos : 0 ≤ d + 0.8 * (128 - d) := by linarith
  rw [Real.sqrt_eq_iff_mul_self_eq
    (add_nonneg (mul_self_nonneg _) (mul_self_nonneg _)) hpos]
  have hne : d ≠ 0 := h0.ne'
  field_simp
  ring_nf
  ring_nf at hsq
  nlinarith [hsq]

theorem needsPush_real_of_lt (n m : String) (di dj : JSNum ℝ) (a b c e d : ℝ)
    (hd : d = Real.sqrt ((c - a) * (c - a) + (e - b) * (e - b))) (h0 : 0 < d) (h128 : d < 128) :
    needsPush realMath (nodeAt n a b di) (nodeAt m c e dj) = true := by
  have hdist : pairDistance realMath (nodeAt n a b di) (nodeAt m c e dj) = fin d := by
    rw [pairDistance_nodeAt, hd]
    rfl
  unfold needsPush
  rw [hdist]
  simp only [lt_fin, gt_fin, minDistance, Nat.cast_ofNat, Bool.and_eq_true, decide_eq_true_eq]
  exact ⟨h128, h0⟩

theorem clamp_fin_eq_iff (v : ℝ) :
    (clampX (fin v) = fin v ↔ 150 ≤ v ∧ v ≤ 1050) ∧
      (clampY (fin v) = fin v ↔ 150 ≤ v ∧ v ≤ 590) := by
  rw [clampX_fin, clampY_fin]
  constructor
  · constructor
    · intro h
      have h1 : max 150 (min 1050 v) = v := by injection h
      exact ⟨h1 ▸ le_max_left _ _, h1 ▸ max_le (by norm_num) (min_le_left _ _)⟩
    · rintro ⟨h1, h2⟩
      rw [min_eq_right h2, max_eq_right h1]
  · constructor
    · intro h
      have h1 : max 150 (min 590 v) = v := by injection h
      exact ⟨h1 ▸ le_max_left _ _, h1 ▸ max_le (by norm_num) (min_le_left _ _)⟩
    · rintro ⟨h1, h2⟩
      rw [min_eq_right h2, max_eq_right h1]

theorem rawPush_real_moved (n m : String) (di dj : JSNum ℝ) (a b c e d : ℝ)
    (hd : d = Real.sqrt ((c - a) * (c - a) + (e - b) * (e - b))) (h0 : 0 < d) :
    rawPush realMath (nodeAt n a b di) (nodeAt m c e dj) =
      ((fin (movedI a c d), fin (movedI b e d)), (fin (movedJ a c d), fin (movedJ b e d))) :=
  rawPush_real n m di dj a b c e d hd h0

theorem pushPair_real_of_noClamp (n m : String) (di dj : JSNum ℝ) (a b c e d : ℝ)
    (hd : d = Real.sqrt ((c - a) * (c - a) + (e - b) * (e - b))) (h0 : 0 < d)
    (hc : NoClamp realMath (nodeAt n a b di) (nodeAt m c e dj)) :
    pushPair realMath (nodeAt n a b di) (nodeAt m c e dj) =
      (nodeAt n (movedI a c d) (movedI b e d) di, nodeAt m (movedJ a c d) (movedJ b e d) dj) := by
  obtain ⟨h1, h2, h3, h4⟩ := hc
  rw [pushPair_eq_clamp_rawPush, h1, h2, h3, h4, rawPush_real_moved n m di dj a b c e d hd h0]
  rfl

theorem moved_distance (a b c e d : ℝ)
    (hd : d = Real.sqrt ((c - a) * (c - a) + (e - b) * (e - b))) (h0 : 0 < d) :
    Real.sqrt
        ((movedJ a c d - movedI a c d) * (movedJ a c d - movedI a c d) +
          (movedJ b e d - movedI b e d) * (movedJ b e d - movedI b e d)) =
      d + 0.8 * (128 - d) :=
  pushed_distance a b c e d hd h0

/-- C17. Over the reals, a pair of nodes at distance `d` with `0 < d < 128` is pushed: before
the clamps node `i` is written at its position minus `0.4 (128 - d) u` and node `j` at its
position plus `0.4 (128 - d) u`, `u` being the unit vector from `i` to `j`; when no clamp
changes a coordinate the midpoint of the pair stays where it was and the distance becomes
`d + 0.8 (128 - d)`.  A pair at distance `128` or more is not pushed and the step leaves the
array and the flag as they were. -/
theorem pairStep_real (n m : String) (di dj : JSNum ℝ) (a b c e d : ℝ)
    (hd : d = Real.sqrt ((c - a) * (c - a) + (e - b) * (e - b))) (h0 : 0 < d) (h128 : d < 128) :
    needsPush realMath (nodeAt n a b di) (nodeAt m c e dj) = true ∧
      rawPush realMath (nodeAt n a b di) (nodeAt m c e dj) =
        ((fin (a - 0.4 * (128 - d) * ((c - a) / d)), fin (b - 0.4 * (128 - d) * ((e - b) / d))),
          (fin (c + 0.4 * (128 - d) * ((c - a) / d)),
            fin (e + 0.4 * (128 - d) * ((e - b) / d)))) ∧
      pushPair realMath (nodeAt n a b di) (nodeAt m c e dj) =
        ({ nodeAt n a b di with
            x := clampX (fin (movedI a c d)), y := clampY (fin (movedI b e d)) },
          { nodeAt m c e dj with
            x := clampX (fin (movedJ a c d)), y := clampY (fin (movedJ b e d)) }) ∧
      (NoClamp realMath (nodeAt n a b di) (nodeAt m c e dj) →
        pushPair realMath (nodeAt n a b di) (nodeAt m c e dj) =
            (nodeAt n (movedI a c d) (movedI b e d) di,
              nodeAt m (movedJ a c d) (movedJ b e d) dj) ∧
          (movedI a c d + movedJ a c d) / 2 = (a + c) / 2 ∧
          (movedI b e d + movedJ b e d) / 2 = (b + e) / 2 ∧
          pairDistance realMath
              (pushPair realMath (nodeAt n a b di) (nodeAt m c e dj)).1
              (pushPair realMath (nodeAt n a b di) (nodeAt m c e dj)).2 =
            fin (d + 0.8 * (128 - d))) ∧
      ∀ a2 b2 c2 e2 : ℝ,
        128 ≤ Real.sqrt ((c2 - a2) * (c2 - a2) + (e2 - b2) * (e2 - b2)) →
        needsPush realMath (nodeAt n a2 b2 di) (nodeAt m c2 e2 dj) = false ∧
          ∀ (st : List (Node ℝ) × Bool) (i j : ℕ),
            st.1[i]? = some (nodeAt n a2 b2 di) → st.1[j]? = some (nodeAt m c2 e2 dj) →
            pairStep realMath i st j = st := by
  refine ⟨needsPush_real_of_lt n m di dj a b c e d hd h0 h128,
    rawPush_real n m di dj a b c e d hd h0, ?_, ?_, ?_⟩
  · rw [pushPair_eq_clamp_rawPush, rawPush_real_moved n m di dj a b c e d hd h0]
  · intro hc
    have hp := pushPair_real_of_noClamp n m di dj a b c e d hd h0 hc
    refine ⟨hp, ?_, ?_, ?_⟩
    · unfold movedI movedJ
      ring
    · unfold movedI movedJ
      ring
    · rw [hp, pairDistance_nodeAt]
      show fin (Real.sqrt _) = _
      rw [moved_distance a b c e d hd h0]
  · intro a2 b2 c2 e2 hfar
    have hnp : needsPush realMath (nodeAt n a2 b2 di) (nodeAt m c2 e2 dj) = false :=
      (needsPush_real n m a2 b2 c2 e2 di dj).mpr (Or.inr hfar)
    refine ⟨hnp, ?_⟩
    intro st i j hi hj
    unfold pairStep
    rw [hi, hj]
    simp only [hnp, Bool.false_eq_true, if_false]

theorem sqrt_sq_64 :
    (64 : ℝ) = Real.sqrt ((664 - 600) * (664 - 600) + (375 - 375) * (375 - 375)) := by
  have h : ((664 : ℝ) - 600) * (664 - 600) + (375 - 375) * (375 - 375) = 64 * 64 := by norm_num
  rw [h, Real.sqrt_mul_self (by norm_num)]

theorem pairStep_real_witness :
    (64 : ℝ) = Real.sqrt ((664 - 600) * (664 - 600) + (375 - 375) * (375 - 375)) ∧
      (0 : ℝ) < 64 ∧ (64 : ℝ) < 128 ∧
      needsPush realMath (nodeAt "A" 600 375 (fin 5)) (nodeAt "B" 664 375 (fin 5)) = true ∧
      rawPush realMath (nodeAt "A" 600 375 (fin 5)) (nodeAt "B" 664 375 (fin 5)) =
        ((fin (600 - 0.4 * (128 - 64) * ((664 - 600) / 64)),
            fin (375 - 0.4 * (128 - 64) * ((375 - 375) / 64))),
          (fin (664 + 0.4 * (128 - 64) * ((664 - 600) / 64)),
            fin (375 + 0.4 * (128 - 64) * ((375 - 375) / 64)))) :=
  ⟨sqrt_sq_64, by norm_num, by norm_num,
    (pairStep_real "A" "B" (fin 5) (fin 5) 600 375 664 375 64 sqrt_sq_64
      (by norm_num) (by norm_num)).1,
    (pairStep_real "A" "B" (fin 5) (fin 5) 600 375 664 375 64 sqrt_sq_64
      (by norm_num) (by norm_num)).2.1⟩

/-! ## Two nodes never reach the minimum distance -/

/-- One pass over a list of two nodes. -/
theorem relaxPass_pair (M : MathOps α) (ni nj : Node α) :
    relaxPass M [ni, nj] =
      if needsPush M ni nj then ([(pushPair M ni nj).1, (pushPair M ni nj).2], true)
      else ([ni, nj], false) := by
  have h1 : List.range' 0 [ni, nj].length = [0, 1] := rfl
  have h2 : ∀ st : List (Node α) × Bool, st.1.length = 2 →
      innerLoop M st 0 = pairStep M 0 st 1 := by
    intro st hst
    unfold innerLoop
    rw [hst]
    rfl
  have h3 : ∀ st : List (Node α) × Bool, st.1.length = 2 → innerLoop M st 1 = st := by
    intro st hst
    unfold innerLoop
    rw [hst]
    rfl
  unfold relaxPass
  rw [h1, List.foldl_cons, List.foldl_cons, List.foldl_nil, h2 ([ni, nj], false) rfl]
  have hstep : pairStep M 0 ([ni, nj], false) 1 =
      if needsPush M ni nj then ([(pushPair M ni nj).1, (pushPair M ni nj).2], true)
      else ([ni, nj], false) := by
    unfold pairStep
    simp only [List.getElem?_cons_zero, List.getElem?_cons_succ, List.set_cons_zero,
      List.set_cons_succ]
  rw [hstep]
  split_ifs
  · exact h3 _ rfl
  · exact h3 _ rfl

theorem pow_bounds (k : ℕ) (d : ℝ) (h0 : 0 < d) (h128 : d < 128) :
    0 < 128 - (0.2 : ℝ) ^ k * (128 - d) ∧ 128 - (0.2 : ℝ) ^ k * (128 - d) < 128 := by
  have hp : (0 : ℝ) < 0.2 ^ k := pow_pos (by norm_num) k
  have hle : (0.2 : ℝ) ^ k ≤ 1 := pow_le_one₀ (by norm_num) (by norm_num)
  have hgap : 0 < 128 - d := by linarith
  constructor
  · nlinarith [mul_le_mul_of_nonneg_right hle hgap.le]
  · nlinarith [mul_pos hp hgap]

/-- The result of one pass over two nodes at a distance `d` in `(0, 128)` when no clamp
changes a coordinate. -/
theorem relaxPass_pair_real (n m : String) (di dj : JSNum ℝ) (a b c e d : ℝ)
    (hd : d = Real.sqrt ((c - a) * (c - a) + (e - b) * (e - b))) (h0 : 0 < d) (h128 : d < 128)
    (hc : NoClamp realMath (nodeAt n a b di) (nodeAt m c e dj)) :
    relaxPass realMath [nodeAt n a b di, nodeAt m c e dj] =
      ([nodeAt n (movedI a c d) (movedI b e d) di, nodeAt m (movedJ a c d) (movedJ b e d) dj],
        true) := by
  rw [relaxPass_pair, if_pos (needsPush_real_of_lt n m di dj a b c e d hd h0 h128),
    pushPair_real_of_noClamp n m di dj a b c e d hd h0 hc]

theorem twoNodes_afterPasses (k : ℕ) :
    ∀ (n m : String) (di dj : JSNum ℝ) (a b c e d : ℝ),
      d = Real.sqrt ((c - a) * (c - a) + (e - b) * (e - b)) → 0 < d → d < 128 →
      (∀ k1 < k, ∀ p q : Node ℝ,
        afterPasses realMath k1 [nodeAt n a b di, nodeAt m c e dj] = [p, q] →
        NoClamp realMath p q) →
      ∃ a1 b1 c1 e1 : ℝ,
        afterPasses realMath k [nodeAt n a b di, nodeAt m c e dj] =
            [nodeAt n a1 b1 di, nodeAt m c1 e1 dj] ∧
          Real.sqrt ((c1 - a1) * (c1 - a1) + (e1 - b1) * (e1 - b1)) =
            128 - (0.2 : ℝ) ^ k * (128 - d) ∧
          spacingLoop realMath k [nodeAt n a b di, nodeAt m c e dj] =
            { nodes := [nodeAt n a1 b1 di, nodeAt m c1 e1 dj], passes := k, broke := false } := by
  induction k with
  | zero =>
    intro n m di dj a b c e d hd _ _ _
    refine ⟨a, b, c, e, rfl, ?_, rfl⟩
    rw [← hd]
    ring
  | succ k ih =>
    intro n m di dj a b c e d hd h0 h128 hclamp
    have hc0 : NoClamp realMath (nodeAt n a b di) (nodeAt m c e dj) :=
      hclamp 0 (Nat.succ_pos k) _ _ rfl
    have hpass := relaxPass_pair_real n m di dj a b c e d hd h0 h128 hc0
    have hd1 := (moved_distance a b c e d hd h0).symm
    obtain ⟨a1, b1, c1, e1, h1, h2, h3⟩ :=
      ih n m di dj (movedI a c d) (movedI b e d) (movedJ a c d) (movedJ b e d)
        (d + 0.8 * (128 - d)) hd1 (by linarith) (by linarith)
        (fun k1 hk1 p q hpq => hclamp (k1 + 1) (Nat.succ_lt_succ hk1) p q (by
          show afterPasses realMath k1
            (relaxPass realMath [nodeAt n a b di, nodeAt m c e dj]).1 = [p, q]
          rw [hpass]
          exact hpq))
    refine ⟨a1, b1, c1, e1, ?_, ?_, ?_⟩
    · show afterPasses realMath k
        (relaxPass realMath [nodeAt n a b di, nodeAt m c e dj]).1 = _
      rw [hpass]
      exact h1
    · rw [h2, pow_succ]
      ring
    · simp only [spacingLoop, hpass, if_true]
      rw [h3]

theorem moved_within (lo hi a c d : ℝ) (h0 : 0 < d) (h128 : d < 128)
    (h1 : lo ≤ (a + c) / 2 - 64 * ((c - a) / d)) (h2 : (a + c) / 2 - 64 * ((c - a) / d) ≤ hi)
    (h3 : lo ≤ (a + c) / 2 + 64 * ((c - a) / d)) (h4 : (a + c) / 2 + 64 * ((c - a) / d) ≤ hi) :
    (lo ≤ movedI a c d ∧ movedI a c d ≤ hi) ∧ (lo ≤ movedJ a c d ∧ movedJ a c d ≤ hi) := by
  have hX : c - a = d * ((c - a) / d) := by
    field_simp
  have hI : movedI a c d = (a + c) / 2 - (0.1 * d + 51.2) * ((c - a) / d) := by
    unfold movedI
    linear_combination (-1 / 2 : ℝ) * hX
  have hJ : movedJ a c d = (a + c) / 2 + (0.1 * d + 51.2) * ((c - a) / d) := by
    unfold movedJ
    linear_combination (1 / 2 : ℝ) * hX
  rw [hI, hJ]
  have ht0 : (0 : ℝ) ≤ 0.1 * d + 51.2 := by linarith
  have ht1 : (0 : ℝ) ≤ 64 - (0.1 * d + 51.2) := by linarith
  rcases le_total 0 ((c - a) / d) with hx | hx
  · have p1 := mul_nonneg ht0 hx
    have p2 := mul_nonneg ht1 hx
    refine ⟨⟨by linarith, by linarith⟩, ⟨by linarith, by linarith⟩⟩
  · have p1 := mul_nonneg ht0 (neg_nonneg.mpr hx)
    have p2 := mul_nonneg ht1 (neg_nonneg.mpr hx)
    refine ⟨⟨by linarith, by linarith⟩, ⟨by linarith, by linarith⟩⟩

theorem noClamp_of_margin (n m : String) (di dj : JSNum ℝ) (a b c e d : ℝ)
    (hd : d = Real.sqrt ((c - a) * (c - a) + (e - b) * (e - b))) (h0 : 0 < d) (h128 : d < 128)
    (hm : Margin a b c e d) : NoClamp realMath (nodeAt n a b di) (nodeAt m c e dj) := by
  obtain ⟨⟨x1, x2⟩, ⟨x3, x4⟩, ⟨y1, y2⟩, ⟨y3, y4⟩⟩ := hm
  have hx := moved_within 150 1050 a c d h0 h128 x1 x2 x3 x4
  have hy := moved_within 150 590 b e d h0 h128 y1 y2 y3 y4
  unfold NoClamp
  rw [rawPush_real_moved n m di dj a b c e d hd h0]
  exact ⟨(clamp_fin_eq_iff _).1.mpr hx.1, (clamp_fin_eq_iff _).2.mpr hy.1,
    (clamp_fin_eq_iff _).1.mpr hx.2, (clamp_fin_eq_iff _).2.mpr hy.2⟩

theorem margin_moved (a b c e d : ℝ) (h0 : 0 < d) (hm : Margin a b c e d) :
    Margin (movedI a c d) (movedI b e d) (movedJ a c d) (movedJ b e d)
      (d + 0.8 * (128 - d)) := by
  have hne : d ≠ 0 := h0.ne'
  have hne1 : d + 0.8 * (128 - d) ≠ 0 := by
    have : 0 < d + 0.8 * (128 - d) := by linarith
    exact this.ne'
  have hmid : ∀ u v : ℝ, (movedI u v d + movedJ u v d) / 2 = (u + v) / 2 := by
    intro u v
    unfold movedI movedJ
    ring
  have hdir : ∀ u v : ℝ, (movedJ u v d - movedI u v d) / (d + 0.8 * (128 - d)) = (v - u) / d := by
    intro u v
    unfold movedI movedJ
    field_simp
    ring
  unfold Margin
  rw [hmid a c, hmid b e, hdir a c, hdir b e]
  exact hm

theorem noClamp_afterPasses_of_margin (k : ℕ) :
    ∀ (n m : String) (di dj : JSNum ℝ) (a b c e d : ℝ),
      d = Real.sqrt ((c - a) * (c - a) + (e - b) * (e - b)) → 0 < d → d < 128 →
      Margin a b c e d →
      ∀ p q : Node ℝ,
        afterPasses realMath k [nodeAt n a b di, nodeAt m c e dj] = [p, q] →
        NoClamp realMath p q := by
  induction k with
  | zero =>
    intro n m di dj a b c e d hd h0 h128 hm p q hpq
    have hpq1 : [nodeAt n a b di, nodeAt m c e dj] = [p, q] := hpq
    simp only [List.cons.injEq, and_true] at hpq1
    rw [← hpq1.1, ← hpq1.2]
    exact noClamp_of_margin n m di dj a b c e d hd h0 h128 hm
  | succ k ih =>
    intro n m di dj a b c e d hd h0 h128 hm p q hpq
    have hc0 := noClamp_of_margin n m di dj a b c e d hd h0 h128 hm
    have hpass := relaxPass_pair_real n m di dj a b c e d hd h0 h128 hc0
    have hpq1 : afterPasses realMath k
        (relaxPass realMath [nodeAt n a b di, nodeAt m c e dj]).1 = [p, q] := hpq
    rw [hpass] at hpq1
    exact ih n m di dj _ _ _ _ _ (moved_distance a b c e d hd h0).symm (by linarith)
      (by linarith) (margin_moved a b c e d h0 hm) p q hpq1

/-- The relaxation of two nodes in exact real arithmetic, without rounding: at a distance `d0`
in `(0, 128)` and with no clamp changing a coordinate, each of the 70 passes adjusts the pair,
after `k` passes the distance is `128 - 0.2 ^ k (128 - d0)`, the loop is never left through
`break`, and the distance of the returned pair is below `128`.  The program computes in
doubles, where the rounded distance reaches `128` after a few dozen passes and the loop is
left early: this statement is about the exact model only. -/
theorem twoNodes_never_converge (n m : String) (di dj : JSNum ℝ) (a b c e d0 : ℝ)
    (hd : d0 = Real.sqrt ((c - a) * (c - a) + (e - b) * (e - b)))
    (h0 : 0 < d0) (h128 : d0 < 128)
    (hclamp : ∀ k < maxIterations, ∀ p q : Node ℝ,
      afterPasses realMath k [nodeAt n a b di, nodeAt m c e dj] = [p, q] →
      NoClamp realMath p q) :
    (∀ k < maxIterations,
        (relaxPass realMath
          (afterPasses realMath k [nodeAt n a b di, nodeAt m c e dj])).2 = true) ∧
      (∀ k ≤ maxIterations, ∃ p q : Node ℝ,
        afterPasses realMath k [nodeAt n a b di, nodeAt m c e dj] = [p, q] ∧
          pairDistance realMath p q = fin (128 - (0.2 : ℝ) ^ k * (128 - d0))) ∧
      (spacingLoop realMath maxIterations [nodeAt n a b di, nodeAt m c e dj]).passes =
        maxIterations ∧
      (spacingLoop realMath maxIterations [nodeAt n a b di, nodeAt m c e dj]).broke = false ∧
      ∃ p q : Node ℝ,
        applyDistanceAwareSpacing realMath [nodeAt n a b di, nodeAt m c e dj] = [p, q] ∧
          pairDistance realMath p q = fin (128 - (0.2 : ℝ) ^ 70 * (128 - d0)) ∧
          128 - (0.2 : ℝ) ^ 70 * (128 - d0) < 128 := by
  have hall := fun (k : ℕ) (hk : k ≤ maxIterations) =>
    twoNodes_afterPasses k n m di dj a b c e d0 hd h0 h128
      (fun k1 hk1 => hclamp k1 (lt_of_lt_of_le hk1 hk))
  have hdist : ∀ (a1 b1 c1 e1 v : ℝ),
      Real.sqrt ((c1 - a1) * (c1 - a1) + (e1 - b1) * (e1 - b1)) = v →
      pairDistance realMath (nodeAt n a1 b1 di) (nodeAt m c1 e1 dj) = fin v := by
    intro a1 b1 c1 e1 v hv
    rw [pairDistance_nodeAt, ← hv]
    rfl
  refine ⟨?_, ?_, ?_, ?_, ?_⟩
  · intro k hk
    obtain ⟨a1, b1, c1, e1, h1, h2, -⟩ := hall k (le_of_lt hk)
    have hb := pow_bounds k d0 h0 h128
    rw [h1, relaxPass_pair,
      if_pos (needsPush_real_of_lt n m di dj a1 b1 c1 e1 _ h2.symm hb.1 hb.2)]
  · intro k hk
    obtain ⟨a1, b1, c1, e1, h1, h2, -⟩ := hall k hk
    exact ⟨_, _, h1, hdist a1 b1 c1 e1 _ h2⟩
  · obtain ⟨a1, b1, c1, e1, -, -, h3⟩ := hall maxIterations (le_refl _)
    rw [h3]
  · obtain ⟨a1, b1, c1, e1, -, -, h3⟩ := hall maxIterations (le_refl _)
    rw [h3]
  · obtain ⟨a1, b1, c1, e1, -, h2, h3⟩ := hall maxIterations (le_refl _)
    refine ⟨nodeAt n a1 b1 di, nodeAt m c1 e1 dj, ?_, hdist a1 b1 c1 e1 _ h2,
      (pow_bounds 70 d0 h0 h128).2⟩
    unfold applyDistanceAwareSpacing
    rw [h3]

theorem sqrt_twoCloseNodes :
    (64 : ℝ) = Real.sqrt ((632 - 568) * (632 - 568) + (375 - 375) * (375 - 375)) := by
  have h : ((632 : ℝ) - 568) * (632 - 568) + (375 - 375) * (375 - 375) = 64 * 64 := by norm_num
  rw [h, Real.sqrt_mul_self (by norm_num)]

theorem margin_twoCloseNodes : Margin (568 : ℝ) 375 632 375 64 := by
  unfold Margin
  norm_num

theorem twoNodes_never_converge_witness :
    (0 : ℝ) < 64 ∧ (64 : ℝ) < 128 ∧
      (∀ k < maxIterations, ∀ p q : Node ℝ,
        afterPasses realMath k twoCloseNodes = [p, q] → NoClamp realMath p q) ∧
      (spacingLoop realMath maxIterations twoCloseNodes).passes = maxIterations ∧
      (spacingLoop realMath maxIterations twoCloseNodes).broke = false ∧
      ∃ p q : Node ℝ,
        applyDistanceAwareSpacing realMath twoCloseNodes = [p, q] ∧
          pairDistance realMath p q = fin (128 - (0.2 : ℝ) ^ 70 * (128 - 64)) ∧
          128 - (0.2 : ℝ) ^ 70 * (128 - 64) < 128 :=
  ⟨by norm_num, by norm_num,
    fun k _ => noClamp_afterPasses_of_margin k "A" "B" (fin 5) (fin 5) 568 375 632 375 64
      sqrt_twoCloseNodes (by norm_num) (by norm_num) margin_twoCloseNodes,
    (twoNodes_never_converge "A" "B" (fin 5) (fin 5) 568 375 632 375 64 sqrt_twoCloseNodes
      (by norm_num) (by norm_num)
      (fun k _ => noClamp_afterPasses_of_margin k "A" "B" (fin 5) (fin 5) 568 375 632 375 64
        sqrt_twoCloseNodes (by norm_num) (by norm_num) margin_twoCloseNodes)).2.2⟩

/-! ## Ranges of the visual attributes -/

/-- C21. At every offset translateY lies in `[0, 100]`, scale in `[0.75, 1]` and opacity in
`[0, 1]`, and a hidden page has opacity `0`. -/
theorem pageStyle_ranges (offset : α) :
    (0 ≤ (pageStyle offset).translateY ∧ (pageStyle offset).translateY ≤ 100) ∧
      (0.75 ≤ (pageStyle offset).scale ∧ (pageStyle offset).scale ≤ 1) ∧
      (0 ≤ (pageStyle offset).opacity ∧ (pageStyle offset).opacity ≤ 1) ∧
      ((pageStyle offset).visibility = .hidden → (pageStyle offset).opacity = 0) := by
  have hc : (-0.01 : α) = -(1 / 100) := by norm_num
  have h75 : (0.75 : α) = 3 / 4 := by norm_num
  have h85 : (0.85 : α) = 17 / 20 := by norm_num
  have h15 : (0.15 : α) = 3 / 20 := by norm_num
  have h25 : (0.25 : α) = 1 / 4 := by norm_num
  unfold pageStyle
  rw [hc, h75, h85, h15, h25]
  split_ifs with h1 h2 h3 h4
  · refine ⟨⟨?_, ?_⟩, ⟨?_, ?_⟩, ⟨?_, ?_⟩, fun _ => rfl⟩ <;> norm_num
  · have h1' : offset ≤ 1 := not_lt.mp h1
    have h2' : 0 < offset := h2
    refine ⟨⟨?_, ?_⟩, ⟨?_, ?_⟩, ⟨?_, ?_⟩, fun h => ?_⟩
    · show 0 ≤ offset * 100
      linarith
    · show offset * 100 ≤ 100
      linarith
    · show (3 / 4 : α) ≤ 17 / 20 + (1 - offset) * (3 / 20)
      linarith
    · show (17 / 20 : α) + (1 - offset) * (3 / 20) ≤ 1
      linarith
    · show (0 : α) ≤ 1
      norm_num
    · show (1 : α) ≤ 1
      exact le_refl 1
    · cases h
  · refine ⟨⟨?_, ?_⟩, ⟨?_, ?_⟩, ⟨?_, ?_⟩, fun h => ?_⟩
    · exact le_refl (0 : α)
    · show (0 : α) ≤ 100
      norm_num
    · show (3 / 4 : α) ≤ 1
      norm_num
    · exact le_refl (1 : α)
    · show (0 : α) ≤ 1
      norm_num
    · exact le_refl (1 : α)
    · cases h
  · have h3' : offset < -(1 / 100) := not_le.mp h3
    have h4' : -1 ≤ offset := h4
    refine ⟨⟨?_, ?_⟩, ⟨?_, ?_⟩, ⟨?_, ?_⟩, fun h => ?_⟩
    · exact le_refl (0 : α)
    · show (0 : α) ≤ 100
      norm_num
    · show (3 / 4 : α) ≤ 1 + offset * (1 / 4)
      linarith
    · show (1 : α) + offset * (1 / 4) ≤ 1
      linarith
    · show (0 : α) ≤ 1 + offset
      linarith
    · show (1 : α) + offset ≤ 1
      linarith
    · cases h
  · refine ⟨⟨?_, ?_⟩, ⟨?_, ?_⟩, ⟨?_, ?_⟩, fun _ => rfl⟩ <;> norm_num

/-! ## The highlighted suggestion -/

theorem filteredSkills_length_le (allSkills : List String) (searchTerm : String) :
    (filteredSkills allSkills searchTerm).length ≤ 3 := by
  unfold filteredSkills
  split_ifs
  · exact List.length_take_le 3 _
  · exact Nat.zero_le 3

/-- With one suggestion or more, an arrow key takes a valid highlight to a valid index. -/
theorem handleKeyPress_arrow_of_nonempty (allSkills topSkills : List String) (st : SkillsState)
    (key : String) (hkey : key = "ArrowDown" ∨ key = "ArrowUp")
    (hne : filteredSkills allSkills st.searchTerm ≠ []) (hv : HighlightValid allSkills st) :
    ∃ st1 : SkillsState, handleKeyPress allSkills topSkills st key = .ok st1 ∧
      st1.searchTerm = st.searchTerm ∧ 0 ≤ st1.highlightedIndex ∧
      st1.highlightedIndex < ((filteredSkills allSkills st.searchTerm).length : ℤ) := by
  have hlen : 0 < (filteredSkills allSkills st.searchTerm).length := List.length_pos.mpr hne
  have hlenZ : (0 : ℤ) < ((filteredSkills allSkills st.searchTerm).length : ℤ) := by
    exact_mod_cast hlen
  have hlow : -1 ≤ st.highlightedIndex := by
    rcases hv with h | h
    · rw [h]
    · linarith [h.1]
  have hhigh : st.highlightedIndex < ((filteredSkills allSkills st.searchTerm).length : ℤ) := by
    rcases hv with h | h
    · rw [h]; linarith
    · exact h.2
  have hdown : ∀ i len : ℤ, -1 ≤ i → i < len → 0 < len →
      0 ≤ (if i < len - 1 then i + 1 else 0) ∧ (if i < len - 1 then i + 1 else 0) < len := by
    intro i len h1 h2 h3
    split_ifs <;> constructor <;> omega
  have hup : ∀ i len : ℤ, -1 ≤ i → i < len → 0 < len →
      0 ≤ (if i > 0 then i - 1 else len - 1) ∧ (if i > 0 then i - 1 else len - 1) < len := by
    intro i len h1 h2 h3
    split_ifs <;> constructor <;> omega
  rcases hkey with rfl | rfl
  · refine ⟨{ st with
        highlightedIndex :=
          if st.highlightedIndex < ((filteredSkills allSkills st.searchTerm).length : ℤ) - 1
          then st.highlightedIndex + 1 else 0 }, ?_, rfl,
      (hdown _ _ hlow hhigh hlenZ).1, (hdown _ _ hlow hhigh hlenZ).2⟩
    simp only [handleKeyPress, if_true]
  · refine ⟨{ st with
        highlightedIndex :=
          if st.highlightedIndex > 0 then st.highlightedIndex - 1
          else ((filteredSkills allSkills st.searchTerm).length : ℤ) - 1 }, ?_, rfl,
      (hup _ _ hlow hhigh hlenZ).1, (hup _ _ hlow hhigh hlenZ).2⟩
    simp only [handleKeyPress, show ¬ ("ArrowUp" = "ArrowDown") by decide, if_false,
      if_true]

/-- On an empty list of suggestions the up arrow sets the highlight to `-1`. -/
theorem handleKeyPress_arrowUp_of_empty (allSkills topSkills : List String) (st : SkillsState)
    (he : filteredSkills allSkills st.searchTerm = []) (hv : st.highlightedIndex ≤ 0) :
    handleKeyPress allSkills topSkills st "ArrowUp" = .ok { st with highlightedIndex := -1 } := by
  simp only [handleKeyPress, show ¬ ("ArrowUp" = "ArrowDown") by decide, if_false, if_true, he,
    List.length_nil, Nat.cast_zero, zero_sub, gt_iff_lt, not_lt.mpr hv]

/-- On an empty list of suggestions the down arrow, from the highlight `-1`, sets the
highlight to `0`, and the Enter key that follows passes `undefined` on. -/
theorem handleKeyPress_of_empty (allSkills topSkills : List String) (st : SkillsState)
    (he : filteredSkills allSkills st.searchTerm = []) (hi : st.highlightedIndex = -1) :
    handleKeyPress allSkills topSkills st "ArrowDown" = .ok { st with highlightedIndex := 0 } ∧
      ¬ HighlightValid allSkills { st with highlightedIndex := 0 } ∧
      arrayAt (filteredSkills allSkills st.searchTerm) 0 = none ∧
      handleKeyPress allSkills topSkills { st with highlightedIndex := 0 } "Enter" =
        .error "TypeError" := by
  refine ⟨?_, ?_, ?_, ?_⟩
  · simp only [handleKeyPress, if_true, he, hi, List.length_nil, Nat.cast_zero, zero_sub,
      lt_irrefl, if_false]
  · rintro (h | h)
    · have h0 : (0 : ℤ) = -1 := h
      omega
    · have h1 : (0 : ℤ) < ((filteredSkills allSkills st.searchTerm).length : ℤ) := h.2
      rw [he] at h1
      exact lt_irrefl _ h1
  · rw [he]
    rfl
  · simp only [handleKeyPress, show ¬ ("Enter" = "ArrowDown") by decide,
      show ¬ ("Enter" = "ArrowUp") by decide, if_false, he, ge_iff_le, le_refl, and_self,
      if_true, arrayAt, List.getElem?_nil, addSkillFromSearch]

/-- C22. The claim fails on the code: with nothing typed in the search box (or with the term
`zzz`, which matches no skill of the sample table) the list of suggestions is empty; from the
highlight `-1` the down arrow sets the highlight to `0`, which is neither `-1` nor an index of
the empty list, and the Enter key that follows calls `addSkillFromSearch` with `undefined`,
whose `skill.trim()` throws. -/
theorem handleKeyPress_highlight_escapes (allSkills topSkills : List String) :
    (HighlightValid allSkills openSearch ∧
      handleKeyPress allSkills topSkills openSearch "ArrowDown" =
        .ok { openSearch with highlightedIndex := 0 } ∧
      ¬ HighlightValid allSkills { openSearch with highlightedIndex := 0 } ∧
      arrayAt (filteredSkills allSkills openSearch.searchTerm) 0 = none ∧
      handleKeyPress allSkills topSkills { openSearch with highlightedIndex := 0 } "Enter" =
        .error "TypeError") ∧
    (filteredSkills sampleSkills "zzz" = [] ∧
      HighlightValid sampleSkills (searching "zzz") ∧
      handleKeyPress sampleSkills topSkills (searching "zzz") "ArrowDown" =
        .ok { searching "zzz" with highlightedIndex := 0 } ∧
      ¬ HighlightValid sampleSkills { searching "zzz" with highlightedIndex := 0 } ∧
      handleKeyPress sampleSkills topSkills { searching "zzz" with highlightedIndex := 0 }
        "Enter" = .error "TypeError") := by
  have he1 : filteredSkills allSkills openSearch.searchTerm = [] := rfl
  have he2 : filteredSkills sampleSkills (searching "zzz").searchTerm = [] := by decide
  have h1 := handleKeyPress_of_empty allSkills topSkills openSearch he1 rfl
  have h2 := handleKeyPress_of_empty sampleSkills topSkills (searching "zzz") he2 rfl
  exact ⟨⟨Or.inl rfl, h1.1, h1.2.1, h1.2.2.1, h1.2.2.2⟩,
    ⟨he2, Or.inl rfl, h2.1, h2.2.1, h2.2.2.2⟩⟩

/-! ## Placement with a hint beyond the range of a double -/

theorem toRange_of_abs_lt (v : α) (h : |v| < doubleLimit) : toRange v = fin v := by
  have h1 := abs_lt.mp h
  unfold toRange
  rw [if_neg (not_le.mpr h1.2), if_neg (not_le.mpr h1.1)]

theorem doubleLimit_gt : (10 : α) ^ 302 < doubleLimit := by
  unfold doubleLimit
  norm_num

theorem toRange_of_abs_le (v : α) (h : |v| ≤ 10 ^ 302) : toRange v = fin v :=
  toRange_of_abs_lt v (lt_of_le_of_lt h doubleLimit_gt)

theorem toRange_overflow : toRange ((10 : ℝ) ^ 307 * 35) = pinf := by
  unfold toRange doubleLimit
  rw [if_pos (by norm_num)]

/-- C1. The claim fails on the code for a very large hint: with both ratios `0.5`, the list
index `0` and the distance hint `10^307`, the product `baseDistance * 35` leaves the range of a
double and is `Infinity`; `Infinity * Math.sin(0)` is `NaN`, the clamp of line 88 returns
`NaN`, and the coordinate `(1050, NaN)` is not in the canvas box. -/
theorem placeRoleDouble_hint_overflow :
    placeRoleDouble realMath (fin 0.5) (fin 0.5) (some (fin ((10 : ℝ) ^ 307))) 0 =
        (fin 1050, nan) ∧
      ¬ InBounds
          (placeRoleDouble realMath (fin 0.5) (fin 0.5) (some (fin ((10 : ℝ) ^ 307))) 0).1
          (placeRoleDouble realMath (fin 0.5) (fin 0.5) (some (fin ((10 : ℝ) ^ 307))) 0).2 := by
  have hsmall : ∀ v : ℝ, |v| ≤ 10 ^ 302 → rangeOf (fin v) = fin v := fun v hv =>
    toRange_of_abs_le v hv
  have h0 : rangeOf (fin ((0.5 : ℝ) - 0.5)) = fin 0 := by
    rw [sub_self]
    exact hsmall 0 (by norm_num)
  have hidx : rangeOf (fin (((0 : ℕ) : ℝ) * 0.1)) = fin 0 := by
    rw [Nat.cast_zero, zero_mul]
    exact hsmall 0 (by norm_num)
  have hangle : rangeOf (mathAtan2 realMath (fin 0) (fin 0) + fin 0) = fin (0 : ℝ) := by
    rw [mathAtan2_fin, realMath_atan2_zero, fin_add_fin, add_zero]
    exact hsmall 0 (by norm_num)
  have hscaled : rangeOf (fin ((10 : ℝ) ^ 307) * fin 35) = pinf := by
    rw [fin_mul_fin]
    exact toRange_overflow
  have hcx : rangeOf (fin ((WIDTH : ℕ) : ℝ) / fin 2) = fin 600 := by
    rw [fin_div_fin _ _ (two_ne_zero : (2 : ℝ) ≠ 0)]
    have h : ((WIDTH : ℕ) : ℝ) / 2 = 600 := by
      unfold WIDTH
      norm_num
    rw [h]
    exact hsmall 600 (by norm_num)
  have hcy : rangeOf (fin ((HEIGHT : ℕ) : ℝ) / fin 2) = fin 375 := by
    rw [fin_div_fin _ _ (two_ne_zero : (2 : ℝ) ≠ 0)]
    have h : ((HEIGHT : ℕ) : ℝ) / 2 = 375 := by
      unfold HEIGHT
      norm_num
    rw [h]
    exact hsmall 375 (by norm_num)
  have hcos : mathCos realMath (fin 0) = fin (1 : ℝ) := by
    rw [mathCos_fin]
    show fin (Real.cos 0) = fin 1
    rw [Real.cos_zero]
  have hsin : mathSin realMath (fin 0) = fin (0 : ℝ) := by
    rw [mathSin_fin]
    show fin (Real.sin 0) = fin 0
    rw [Real.sin_zero]
  have hpx : rangeOf ((pinf : JSNum ℝ) * fin 1) = pinf := by
    have h : (pinf : JSNum ℝ) * fin 1 = pinf := by
      show JSNum.mul pinf (fin 1) = pinf
      simp [JSNum.mul, infSigned, JSNum.inf]
    rw [h]
    rfl
  have hpy : rangeOf ((pinf : JSNum ℝ) * fin 0) = nan := by
    have h : (pinf : JSNum ℝ) * fin 0 = nan := by
      show JSNum.mul pinf (fin 0) = nan
      simp [JSNum.mul]
    rw [h]
    rfl
  have hx : clampX (rangeOf ((fin 600 : JSNum ℝ) + pinf)) = fin 1050 := by
    have h : (fin 600 : JSNum ℝ) + pinf = pinf := rfl
    rw [h]
    show clampX (pinf : JSNum ℝ) = fin 1050
    simp only [clampX, WIDTH, PADDING, fin_add_fin, fin_sub_fin]
    show mathMax (fin _) (fin _) = fin 1050
    rw [mathMax_fin]
    norm_num
  have hy : clampY (rangeOf ((fin 375 : JSNum ℝ) + nan)) = nan := by
    rw [add_nan]
    exact clampY_nan
  have hval : placeRoleDouble realMath (fin 0.5) (fin 0.5) (some (fin ((10 : ℝ) ^ 307))) 0 =
      (fin 1050, nan) := by
    simp only [placeRoleDouble, baseDistance, fin_sub_fin, h0, hidx, hangle, hscaled, hcx, hcy,
      hcos, hsin, hpx, hpy, hx, hy]
  refine ⟨hval, ?_⟩
  rw [hval]
  rintro ⟨a, b, -, hb, -⟩
  cases hb

/-- For ratios in `[0, 1]`, a hint of magnitude at most `10^300` (or an absent one) and a list
index of at most `10^300`, no result of lines 76-88 leaves the range of a double: the
placement is the one of exact arithmetic, and it lies in the canvas box. -/
theorem placeRoleDouble_of_moderate (xr yr : ℝ) (d : Option ℝ) (index : ℕ)
    (hx : 0 ≤ xr ∧ xr ≤ 1) (hy : 0 ≤ yr ∧ yr ≤ 1) (hd : |d.getD 5| ≤ 10 ^ 300)
    (hi : (index : ℝ) ≤ 10 ^ 300) :
    placeRoleDouble realMath (fin xr) (fin yr) (d.map fin) index =
        placeRole realMath (fin xr) (fin yr) (d.map fin) index ∧
      InBounds (placeRoleDouble realMath (fin xr) (fin yr) (d.map fin) index).1
        (placeRoleDouble realMath (fin xr) (fin yr) (d.map fin) index).2 := by
  have hsmall : ∀ v : ℝ, |v| ≤ 10 ^ 302 → rangeOf (fin v) = fin v := fun v hv =>
    toRange_of_abs_le v hv
  have hb : baseDistance (d.map fin) = fin (d.getD 5) := by
    cases d <;> rfl
  have hbig : (10 : ℝ) ^ 302 = 100 * 10 ^ 300 := by norm_num
  have hpos : (0 : ℝ) < 10 ^ 300 := by positivity
  have hidx0 : (0 : ℝ) ≤ (index : ℝ) := Nat.cast_nonneg index
  have harg : |realMath.atan2 (yr - 0.5) (xr - 0.5)| ≤ 4 :=
    le_trans (Complex.abs_arg_le_pi _) Real.pi_le_four
  have hargb := abs_le.mp harg
  have hdb := abs_le.mp hd
  have e1 : rangeOf (fin (yr - 0.5)) = fin (yr - 0.5) :=
    hsmall _ (abs_le.mpr ⟨by linarith [hy.1], by linarith [hy.2]⟩)
  have e2 : rangeOf (fin (xr - 0.5)) = fin (xr - 0.5) :=
    hsmall _ (abs_le.mpr ⟨by linarith [hx.1], by linarith [hx.2]⟩)
  have e3 : rangeOf (fin ((index : ℝ) * 0.1)) = fin ((index : ℝ) * 0.1) :=
    hsmall _ (abs_le.mpr ⟨by linarith, by linarith⟩)
  have e4 : rangeOf (fin (realMath.atan2 (yr - 0.5) (xr - 0.5) + (index : ℝ) * 0.1)) =
      fin (realMath.atan2 (yr - 0.5) (xr - 0.5) + (index : ℝ) * 0.1) :=
    hsmall _ (abs_le.mpr ⟨by linarith [hargb.1], by linarith [hargb.2]⟩)
  have e5 : rangeOf (fin (d.getD 5 * 35)) = fin (d.getD 5 * 35) :=
    hsmall _ (abs_le.mpr ⟨by linarith [hdb.1], by linarith [hdb.2]⟩)
  have e6 : rangeOf (fin (((WIDTH : ℕ) : ℝ) / 2)) = fin (((WIDTH : ℕ) : ℝ) / 2) := by
    apply hsmall
    unfold WIDTH
    rw [abs_of_nonneg (by norm_num)]
    linarith
  have e7 : rangeOf (fin (((HEIGHT : ℕ) : ℝ) / 2)) = fin (((HEIGHT : ℕ) : ℝ) / 2) := by
    apply hsmall
    unfold HEIGHT
    rw [abs_of_nonneg (by norm_num)]
    linarith
  have hprod : ∀ c : ℝ, |c| ≤ 1 → |d.getD 5 * 35 * c| ≤ 35 * 10 ^ 300 := by
    intro c hc
    rw [abs_mul, abs_mul, abs_of_nonneg (by norm_num : (0 : ℝ) ≤ 35)]
    have h1 : |d.getD 5| * 35 * |c| ≤ |d.getD 5| * 35 * 1 :=
      mul_le_mul_of_nonneg_left hc (mul_nonneg (abs_nonneg _) (by norm_num))
    linarith
  have hcosb : |d.getD 5 * 35 *
      realMath.cos (realMath.atan2 (yr - 0.5) (xr - 0.5) + (index : ℝ) * 0.1)| ≤
      35 * 10 ^ 300 :=
    hprod _ (Real.abs_cos_le_one _)
  have hsinb : |d.getD 5 * 35 *
      realMath.sin (realMath.atan2 (yr - 0.5) (xr - 0.5) + (index : ℝ) * 0.1)| ≤
      35 * 10 ^ 300 :=
    hprod _ (Real.abs_sin_le_one _)
  have e8 : rangeOf (fin (d.getD 5 * 35 *
      realMath.cos (realMath.atan2 (yr - 0.5) (xr - 0.5) + (index : ℝ) * 0.1))) =
      fin (d.getD 5 * 35 *
        realMath.cos (realMath.atan2 (yr - 0.5) (xr - 0.5) + (index : ℝ) * 0.1)) :=
    hsmall _ (le_trans hcosb (by linarith))
  have e9 : rangeOf (fin (d.getD 5 * 35 *
      realMath.sin (realMath.atan2 (yr - 0.5) (xr - 0.5) + (index : ℝ) * 0.1))) =
      fin (d.getD 5 * 35 *
        realMath.sin (realMath.atan2 (yr - 0.5) (xr - 0.5) + (index : ℝ) * 0.1)) :=
    hsmall _ (le_trans hsinb (by linarith))
  have hw : ((WIDTH : ℕ) : ℝ) / 2 = 600 := by
    unfold WIDTH
    norm_num
  have hh : ((HEIGHT : ℕ) : ℝ) / 2 = 375 := by
    unfold HEIGHT
    norm_num
  have e10 : rangeOf (fin (((WIDTH : ℕ) : ℝ) / 2 + d.getD 5 * 35 *
      realMath.cos (realMath.atan2 (yr - 0.5) (xr - 0.5) + (index : ℝ) * 0.1))) =
      fin (((WIDTH : ℕ) : ℝ) / 2 + d.getD 5 * 35 *
        realMath.cos (realMath.atan2 (yr - 0.5) (xr - 0.5) + (index : ℝ) * 0.1)) := by
    apply hsmall
    rw [hw]
    have hc := abs_le.mp hcosb
    exact abs_le.mpr ⟨by linarith [hc.1], by linarith [hc.2]⟩
  have e11 : rangeOf (fin (((HEIGHT : ℕ) : ℝ) / 2 + d.getD 5 * 35 *
      realMath.sin (realMath.atan2 (yr - 0.5) (xr - 0.5) + (index : ℝ) * 0.1))) =
      fin (((HEIGHT : ℕ) : ℝ) / 2 + d.getD 5 * 35 *
        realMath.sin (realMath.atan2 (yr - 0.5) (xr - 0.5) + (index : ℝ) * 0.1)) := by
    apply hsmall
    rw [hh]
    have hc := abs_le.mp hsinb
    exact abs_le.mpr ⟨by linarith [hc.1], by linarith [hc.2]⟩
  have heq : placeRoleDouble realMath (fin xr) (fin yr) (d.map fin) index =
      placeRole realMath (fin xr) (fin yr) (d.map fin) index := by
    simp only [placeRoleDouble, placeRole, hb, fin_sub_fin, e1, e2, e3, mathAtan2_fin,
      fin_add_fin, e4, fin_mul_fin, e5, fin_div_fin _ _ (two_ne_zero : (2 : ℝ) ≠ 0), e6, e7,
      mathCos_fin, mathSin_fin, e8, e9, e10, e11]
  refine ⟨heq, ?_⟩
  rw [heq]
  exact placeRole_inBounds realMath xr yr d index

end Polaris
